import Mathlib

/-!
# wecube-plugins-qcloud: plugin dispatch and the vm plugin

A shallow embedding of `plugins/plugins.go` and `plugins/vm.go`.

* Go `error` values are the inductive `GoError`; `nil` is `none`.
* Go pointers are `Option`; dereferencing `nil` and indexing out of range are
  run-time panics, modelled by the `panic` outcome of the monad `M`.
* The cloud SDK and the helper packages are outside the two source files. They
  are the fields of `Env`: every remote call answers as a function of the
  history of events so far, so an `Env` is an arbitrary sequence of responses.
* Every remote call and every `time.Sleep` appends an `Event` to the world's
  trace.  `logrus` logging is not modelled (the values it prints are still
  evaluated where evaluating them can panic).
* Go `int` is 64 bits wide (`wrapInt`); `count++` and `count * 5` wrap.
* The two `for` loops of the waits take the number of turns the model may run
  as `fuel`. The `Do` functions run them with `waitFuel timeout` turns, which
  is enough for their timeouts of 120 and 600 (`waitFuel_enough`).
-/

namespace Plugins

/-! ## Errors -/

/-- Go `error` values. The three package-level variables of vm.go are their own
constructors (Go compares errors by identity), `errorsNew` stands for a value
made by `errors.New` or `fmt.Errorf` where the failure happens, and `foreign`
for an error handed back by the SDK or by a helper package. -/
inductive GoError where
  | invalidParameters
  | vmWaitStateTimeout
  | vmNotFound
  | errorsNew (msg : String)
  | foreign (msg : String)
  deriving DecidableEq, Repr

/-- The `Error()` method, which is also what `fmt.Sprint(err)` prints. -/
def GoError.Error : GoError → String
  | .invalidParameters => "Invalid parameters"
  | .vmWaitStateTimeout => "qcloud wait vm timeout"
  | .vmNotFound => "qcloud vm not found"
  | .errorsNew msg => msg
  | .foreign msg => msg

abbrev INVALID_PARAMETERS : GoError := GoError.invalidParameters
abbrev VM_WAIT_STATE_TIMEOUT_ERROR : GoError := GoError.vmWaitStateTimeout
abbrev VM_NOT_FOUND_ERROR : GoError := GoError.vmNotFound

abbrev INSTANCE_STATE_RUNNING : String := "RUNNING"
abbrev INSTANCE_CHARGE_TYPE_PREPAID : String := "PREPAID"
abbrev RENEW_FLAG_NOTIFY_AND_AUTO_RENEW : String := "NOTIFY_AND_AUTO_RENEW"

/-! ## Data model of vm.go -/

structure VmInput where
  Guid : String := ""
  Seed : String := ""
  ProviderParams : String := ""
  VpcId : String := ""
  SubnetId : String := ""
  InstanceName : String := ""
  Id : String := ""
  InstanceType : String := ""
  ImageId : String := ""
  SystemDiskSize : Int := 0
  InstanceChargeType : String := ""
  InstanceChargePeriod : Int := 0
  InstancePrivateIp : String := ""
  Password : String := ""
  ProjectId : Int := 0
  deriving DecidableEq, Repr

structure VmInputs where
  Inputs : List VmInput := []
  deriving DecidableEq, Repr

structure VmOutput where
  Guid : String := ""
  RequestId : String := ""
  Id : String := ""
  Cpu : String := ""
  Memory : String := ""
  Password : String := ""
  InstanceState : String := ""
  InstancePrivateIp : String := ""
  deriving DecidableEq, Repr

structure VmOutputs where
  Outputs : List VmOutput := []
  deriving DecidableEq, Repr

structure VmBindSecurityGroupInput where
  Guid : String := ""
  ProviderParams : String := ""
  InstanceId : String := ""
  SecurityGroupIds : String := ""
  deriving DecidableEq, Repr

structure VmBindSecurityGroupInputs where
  Inputs : List VmBindSecurityGroupInput := []
  deriving DecidableEq, Repr

structure VmBindSecurityGroupOutput where
  Guid : String := ""
  deriving DecidableEq, Repr

structure VmBindSecurityGroupOutputs where
  Outputs : List VmBindSecurityGroupOutput := []
  deriving DecidableEq, Repr

structure PlacementStruct where
  Zone : String := ""
  ProjectId : Int := 0
  deriving DecidableEq, Repr

structure InstanceChargePrepaidStruct where
  Period : Int := 0
  RenewFlag : String := ""
  deriving DecidableEq, Repr

structure SystemDiskStruct where
  DiskType : String := ""
  DiskSize : Int := 0
  deriving DecidableEq, Repr

structure DataDisksStruct where
  DiskSize : Int := 0
  DiskType : String := ""
  DeleteWithInstance : Bool := false
  deriving DecidableEq, Repr

structure VirtualPrivateCloudStruct where
  VpcId : String := ""
  SubnetId : String := ""
  PrivateIpAddresses : List String := []
  deriving DecidableEq, Repr

structure LoginSettingsStruct where
  Password : String := ""
  deriving DecidableEq, Repr

structure InternetAccessible where
  PublicIpAssigned : Bool := false
  InternetMaxBandwidthOut : Int := 0
  deriving DecidableEq, Repr

structure QcloudRunInstanceStruct where
  Placement : PlacementStruct := {}
  ImageId : String := ""
  InstanceChargeType : String := ""
  InstanceChargePrepaid : Option InstanceChargePrepaidStruct := none
  InstanceType : String := ""
  SystemDisk : SystemDiskStruct := {}
  DataDisks : List DataDisksStruct := []
  VirtualPrivateCloud : VirtualPrivateCloudStruct := {}
  LoginSettings : LoginSettingsStruct := {}
  SecurityGroupIds : List String := []
  InternetAccessible : InternetAccessible := {}
  deriving DecidableEq, Repr

/-! ## The SDK's types, as far as the two files use them -/

/-- The `cvm.Client` built by `createCvmClient`. -/
structure Client where
  region : String
  secretId : String
  secretKey : String
  deriving DecidableEq, Repr

/-- The fields of `cvm.Instance` that vm.go reads; all are pointers in the SDK. -/
structure Instance where
  InstanceState : Option String := none
  CPU : Option Int := none
  Memory : Option Int := none
  PrivateIpAddresses : List (Option String) := []
  deriving DecidableEq, Repr

/-- The inner `Response` struct of `cvm.DescribeInstancesResponse`. -/
structure DescribeInstancesBody where
  InstanceSet : List (Option Instance) := []
  RequestId : Option String := none
  deriving DecidableEq, Repr

structure DescribeInstancesResponse where
  Response : Option DescribeInstancesBody := none
  deriving DecidableEq, Repr

/-- The inner `Response` struct of `cvm.RunInstancesResponse`. -/
structure RunInstancesBody where
  InstanceIdSet : List (Option String) := []
  RequestId : Option String := none
  deriving DecidableEq, Repr

structure RunInstancesResponse where
  Response : Option RunInstancesBody := none
  deriving DecidableEq, Repr

/-- The inner `Response` struct of the terminate, start and stop responses. -/
structure RequestIdBody where
  RequestId : Option String := none
  deriving DecidableEq, Repr

structure RequestIdResponse where
  Response : Option RequestIdBody := none
  deriving DecidableEq, Repr

/-- The `cvm.RunInstancesRequest` that `VMCreateAction.Do` submits: the JSON
image of a `QcloudRunInstanceStruct` plus the optional instance name. -/
structure RunInstancesRequest where
  data : QcloudRunInstanceStruct
  InstanceName : Option String := none
  deriving DecidableEq, Repr

/-! ## Events, world and the monad -/

/-- What the program does to the outside: remote calls and sleeps. `other` is a
mark left by code outside the two source files (other plugins, test doubles). -/
inductive Event where
  | sleep (seconds : Nat)
  | DescribeInstances (instanceIds : List String)
  | RunInstances (request : RunInstancesRequest)
  | TerminateInstances (instanceIds : List String)
  | StartInstances (instanceIds : List String)
  | StopInstances (instanceIds : List String)
  | ModifyInstancesAttribute (instanceIds : List String) (securityGroups : List String)
  | other (label : String)
  deriving DecidableEq, Repr

/-- The events so far, oldest first, and how many random passwords were drawn. -/
structure World where
  trace : List Event := []
  randDraws : Nat := 0
  deriving DecidableEq, Repr

/-- Outcome of running Go code: it returns a value, it panics, or the model's
loop fuel ran out before it did either. Each carries the world reached. -/
inductive Res (α : Type) where
  | ok (a : α) (w : World)
  | panic (msg : String) (w : World)
  | outOfFuel (w : World)
  deriving Repr

def Res.world {α : Type} : Res α → World
  | .ok _ w => w
  | .panic _ w => w
  | .outOfFuel w => w

def Res.isPanic {α : Type} : Res α → Bool
  | .panic _ _ => true
  | _ => false

def Res.returns {α : Type} : Res α → Bool
  | .ok _ _ => true
  | _ => false

def Res.isOutOfFuel {α : Type} : Res α → Bool
  | .outOfFuel _ => true
  | _ => false

/-- The value returned, when the code returned. -/
def Res.value? {α : Type} : Res α → Option α
  | .ok a _ => some a
  | _ => none

abbrev M (α : Type) : Type := World → Res α

def M.pure {α : Type} (a : α) : M α := fun w => Res.ok a w

def M.bind {α β : Type} (m : M α) (f : α → M β) : M β := fun w =>
  match m w with
  | .ok a w1 => f a w1
  | .panic msg w1 => .panic msg w1
  | .outOfFuel w1 => .outOfFuel w1

instance : Monad M where
  pure := M.pure
  bind := M.bind

def goPanic {α : Type} (msg : String) : M α := fun w => Res.panic msg w

def emit (e : Event) : M Unit := fun w => Res.ok () { w with trace := w.trace ++ [e] }

abbrev nilDeref : String := "runtime error: invalid memory address or nil pointer dereference"
abbrev indexOutOfRange : String := "runtime error: index out of range"
abbrev sliceOutOfRange : String := "runtime error: slice bounds out of range"

/-- Dereference `*p`. -/
def deref {α : Type} : Option α → M α
  | some a => pure a
  | none => goPanic nilDeref

/-- Index `xs[i]`. -/
def index {α : Type} (xs : List α) (i : Nat) : M α :=
  match xs.get? i with
  | some a => pure a
  | none => goPanic indexOutOfRange

/-- Go `time.Sleep(n * time.Second)`. -/
def Sleep (seconds : Nat) : M Unit := emit (Event.sleep seconds)

/-- Seconds slept in a trace. -/
def elapsed : List Event → Nat
  | [] => 0
  | Event.sleep n :: rest => n + elapsed rest
  | _ :: rest => elapsed rest

def isDescribe : Event → Bool
  | Event.DescribeInstances _ => true
  | _ => false

def isRunInstances : Event → Bool
  | Event.RunInstances _ => true
  | _ => false

/-- Remote calls of any kind (everything but a sleep). -/
def isRemoteCall : Event → Bool
  | Event.sleep _ => false
  | _ => true

/-- Go `int`: 64-bit two's complement. -/
def wrapInt (x : Int) : Int := (x + 2 ^ 63) % 2 ^ 64 - 2 ^ 63

def maxInt : Int := 2 ^ 63 - 1

/-! ## Dynamic values (`interface{}`) -/

/-- The dynamic values that flow through `Process`. -/
inductive Any where
  | nil
  | VmInputs (v : VmInputs)
  | VmBindSecurityGroupInputs (v : VmBindSecurityGroupInputs)
  | VmOutputsPtr (v : VmOutputs)
  | VmBindSecurityGroupOutputs (v : VmBindSecurityGroupOutputs)
  | other (typeName : String) (data : String)
  deriving DecidableEq, Repr

/-- What `%T` prints. -/
def Any.typeName : Any → String
  | .nil => "<nil>"
  | .VmInputs _ => "plugins.VmInputs"
  | .VmBindSecurityGroupInputs _ => "plugins.VmBindSecurityGroupInputs"
  | .VmOutputsPtr _ => "*plugins.VmOutputs"
  | .VmBindSecurityGroupOutputs _ => "plugins.VmBindSecurityGroupOutputs"
  | .other t _ => t

/-! ## plugins.go -/

structure Action where
  ReadParam : Any → M (Any × Option GoError)
  CheckParam : Any → M (Option GoError)
  Do : Any → M (Any × Option GoError)

structure Plugin where
  GetActionByName : String → M (Option Action × Option GoError)

/-- The package variable `plugins`, a Go map, as an association list. -/
abbrev Registry : Type := List (String × Plugin)

def getPluginByName (plugins : Registry) (name : String) : Option Plugin × Option GoError :=
  match plugins.lookup name with
  | none => (none, some (GoError.errorsNew ("plugin[" ++ name ++ "] not found")))
  | some plugin => (some plugin, none)

structure PluginRequest where
  Version : String := ""
  ProviderName : String := ""
  Name : String := ""
  Action : String := ""
  Parameters : Any := Any.nil

structure PluginResponse where
  ResultCode : String := ""
  ResultMsg : String := ""
  Results : Any := Any.nil
  deriving DecidableEq, Repr

/-- The deferred closure of `Process`, run on the response when it returns. -/
def Process.deferred (pluginResponse : PluginResponse) (err : Option GoError) : PluginResponse :=
  match err with
  | some e => { pluginResponse with ResultCode := "1", ResultMsg := e.Error }
  | none => { pluginResponse with ResultCode := "0", ResultMsg := "success" }

def Process (plugins : Registry) (pluginRequest : PluginRequest) :
    M (PluginResponse × Option GoError) :=
  let pluginResponse : PluginResponse := {}
  match getPluginByName plugins pluginRequest.Name with
  | (_, some err) => pure (Process.deferred pluginResponse (some err), some err)
  | (plugin, none) => do
    let plugin ← deref plugin
    let (action, err) ← plugin.GetActionByName pluginRequest.Action
    match err with
    | some err => pure (Process.deferred pluginResponse (some err), some err)
    | none => do
      let action ← deref action
      let (actionParam, err) ← action.ReadParam pluginRequest.Parameters
      match err with
      | some err => pure (Process.deferred pluginResponse (some err), some err)
      | none => do
        let err ← action.CheckParam actionParam
        match err with
        | some err => pure (Process.deferred pluginResponse (some err), some err)
        | none => do
          let (results, err) ← action.Do actionParam
          let pluginResponse := { pluginResponse with Results := results }
          pure (Process.deferred pluginResponse err, err)

/-! ## vm.go -/

/-- The collaborators outside the two source files: the JSON and
provider-parameter helpers, the password and cipher helpers of `utils`, and the
cloud SDK. A remote call answers from the history of events before it. -/
structure Env where
  UnmarshalJsonVmInputs : Any → VmInputs × Option GoError
  UnmarshalJsonVmBindSecurityGroupInputs : Any → VmBindSecurityGroupInputs × Option GoError
  GetMapFromProviderParams : String → List (String × String) × Option GoError
  NewClient : (secretId secretKey region : String) → Option GoError
  CreateRandomPassword : Nat → String
  Md5Encode : String → String
  AesEncode : String → String → String × Option GoError
  DescribeInstances : List Event → Client → List String →
    Option DescribeInstancesResponse × Option GoError
  RunInstances : List Event → Client → RunInstancesRequest →
    Option RunInstancesResponse × Option GoError
  TerminateInstances : List Event → Client → List String →
    Option RequestIdResponse × Option GoError
  StartInstances : List Event → Client → List String →
    Option RequestIdResponse × Option GoError
  StopInstances : List Event → Client → List String →
    Option RequestIdResponse × Option GoError
  ModifyInstancesAttribute : List Event → Client → List String → List String → Option GoError

/-- Reading a Go `map[string]string`: a missing key reads as the empty string. -/
def mapGet (m : List (String × String)) (key : String) : String :=
  (m.lookup key).getD ""

/-- Go `strconv.Itoa`. -/
def Itoa (i : Int) : String := toString i

/-- Go `s[0:n]` on an ASCII string. -/
def sliceTo (s : String) (n : Nat) : M String :=
  if s.length < n then goPanic sliceOutOfRange else pure (String.mk (s.data.take n))

def CreateRandomPassword (env : Env) : M String := fun w =>
  Res.ok (env.CreateRandomPassword w.randDraws) { w with randDraws := w.randDraws + 1 }

def Client.DescribeInstances (env : Env) (client : Client) (instanceIds : List String) :
    M (Option DescribeInstancesResponse × Option GoError) := fun w =>
  Res.ok (env.DescribeInstances w.trace client instanceIds)
    { w with trace := w.trace ++ [Event.DescribeInstances instanceIds] }

def Client.RunInstances (env : Env) (client : Client) (request : RunInstancesRequest) :
    M (Option RunInstancesResponse × Option GoError) := fun w =>
  Res.ok (env.RunInstances w.trace client request)
    { w with trace := w.trace ++ [Event.RunInstances request] }

def Client.TerminateInstances (env : Env) (client : Client) (instanceIds : List String) :
    M (Option RequestIdResponse × Option GoError) := fun w =>
  Res.ok (env.TerminateInstances w.trace client instanceIds)
    { w with trace := w.trace ++ [Event.TerminateInstances instanceIds] }

def Client.StartInstances (env : Env) (client : Client) (instanceIds : List String) :
    M (Option RequestIdResponse × Option GoError) := fun w =>
  Res.ok (env.StartInstances w.trace client instanceIds)
    { w with trace := w.trace ++ [Event.StartInstances instanceIds] }

def Client.StopInstances (env : Env) (client : Client) (instanceIds : List String) :
    M (Option RequestIdResponse × Option GoError) := fun w =>
  Res.ok (env.StopInstances w.trace client instanceIds)
    { w with trace := w.trace ++ [Event.StopInstances instanceIds] }

def Client.ModifyInstancesAttribute (env : Env) (client : Client) (instanceIds : List String)
    (securityGroups : List String) : M (Option GoError) := fun w =>
  Res.ok (env.ModifyInstancesAttribute w.trace client instanceIds securityGroups)
    { w with trace := w.trace ++ [Event.ModifyInstancesAttribute instanceIds securityGroups] }

def createCvmClient (env : Env) (region secretId secretKey : String) : Client × Option GoError :=
  (⟨region, secretId, secretKey⟩, env.NewClient secretId secretKey region)

def describeInstancesFromCvm (env : Env) (client : Client) (describeInstancesParams : List String) :
    M (Option DescribeInstancesResponse × Option GoError) :=
  Client.DescribeInstances env client describeInstancesParams

def getInstanceByInstanceId (env : Env) (client : Client) (instanceId : String) :
    M (Option Instance × Option GoError) := do
  let (describeInstancesResponse, err) ← describeInstancesFromCvm env client [instanceId]
  match err with
  | some err => pure (none, some err)
  | none => do
    let response ← deref describeInstancesResponse
    let body ← deref response.Response
    if body.InstanceSet.length ≠ 1 then
      pure (none, some VM_NOT_FOUND_ERROR)
    else do
      let inst ← index body.InstanceSet 0
      pure (inst, none)

def isInstanceInDesireState (env : Env) (client : Client) (instanceId desireState : String) :
    M (Option GoError) := do
  let (inst, err) ← getInstanceByInstanceId env client instanceId
  match err with
  | some err => pure (some err)
  | none => do
    let inst ← deref inst
    let state ← deref inst.InstanceState
    if state ≠ desireState then
      pure (some (GoError.errorsNew
        ("qcloud instance not in desire state[" ++ desireState ++ "],real state=" ++ state)))
    else
      pure none

/-- The `for` loop of `waitVmInDesireState`, entered with the current `count`.
`fuel` bounds the number of iterations the model runs. -/
def waitVmInDesireState.loop (env : Env) (client : Client) (instanceId desireState : String)
    (timeout : Int) : Nat → Int → M (Option GoError)
  | 0, _ => fun w => Res.outOfFuel w
  | fuel + 1, count => do
    Sleep 5
    let (inst, err) ← getInstanceByInstanceId env client instanceId
    match err with
    | some err => pure (some err)
    | none => do
      let inst ← deref inst
      let state ← deref inst.InstanceState
      if state = desireState then
        pure none
      else
        let count := wrapInt (count + 1)
        if wrapInt (count * 5) > timeout then
          pure (some VM_WAIT_STATE_TIMEOUT_ERROR)
        else
          waitVmInDesireState.loop env client instanceId desireState timeout fuel count

def waitVmInDesireState (env : Env) (client : Client) (instanceId desireState : String)
    (timeout : Int) (fuel : Nat) : M (Option GoError) :=
  waitVmInDesireState.loop env client instanceId desireState timeout fuel 0

/-- The `for` loop of `waitVmTerminateDone`, entered with the current `count`. -/
def waitVmTerminateDone.loop (env : Env) (client : Client) (instanceId : String)
    (timeout : Int) : Nat → Int → M (Option GoError)
  | 0, _ => fun w => Res.outOfFuel w
  | fuel + 1, count => do
    Sleep 5
    let (describeInstancesResponse, err) ← describeInstancesFromCvm env client [instanceId]
    match err with
    | some err => pure (some err)
    | none => do
      let response ← deref describeInstancesResponse
      let body ← deref response.Response
      if body.InstanceSet.length = 0 then
        pure none
      else
        let count := wrapInt (count + 1)
        if wrapInt (count * 5) > timeout then
          pure (some VM_WAIT_STATE_TIMEOUT_ERROR)
        else
          waitVmTerminateDone.loop env client instanceId timeout fuel count

def waitVmTerminateDone (env : Env) (client : Client) (instanceId : String)
    (timeout : Int) (fuel : Nat) : M (Option GoError) :=
  waitVmTerminateDone.loop env client instanceId timeout fuel 0

/-- Iterations after which a wait with this `timeout` has returned: the loop
leaves at the latest when `count * 5 > timeout`, that is at `count = timeout / 5 + 1`. -/
def waitFuel (timeout : Int) : Nat := (timeout / 5).toNat + 1

/-! ### VMAction -/

def VMAction.ReadParam (env : Env) (param : Any) : M (Any × Option GoError) :=
  match env.UnmarshalJsonVmInputs param with
  | (_, some err) => pure (Any.nil, some err)
  | (inputs, none) => pure (Any.VmInputs inputs, none)

/-- The `range` loop of `VMAction.CheckParam`. -/
def VMAction.CheckParam.loop : List VmInput → Option GoError
  | [] => none
  | vm :: rest =>
    if vm.Id = "" then some (GoError.errorsNew "input instance_id is empty")
    else VMAction.CheckParam.loop rest

def VMAction.CheckParam (input : Any) : M (Option GoError) :=
  match input with
  | Any.VmInputs vms => pure (VMAction.CheckParam.loop vms.Inputs)
  | _ => pure (some INVALID_PARAMETERS)

/-- The type assertion `vms, _ := input.(VmInputs)`: the zero value when it fails. -/
def assertVmInputs : Any → VmInputs
  | Any.VmInputs vms => vms
  | _ => {}

/-! ### VMCreateAction -/

def VMCreateAction.CheckParam (input : Any) : M (Option GoError) :=
  match input with
  | Any.VmInputs _ => pure none
  | _ => pure (some INVALID_PARAMETERS)

/-- How one `//check resources exsit` block of `VMCreateAction.Do` leaves:
`return nil, err`, `continue` after appending the output, or falling through. -/
inductive ExistCheck where
  | returnErr (err : GoError)
  | appendAndContinue (output : VmOutput)
  | fallThrough
  deriving DecidableEq, Repr

/-- One `//check resources exsit` block of `VMCreateAction.Do`; the source has
the same block twice in a row (lines 334-361 and 363-391). -/
def VMCreateAction.Do.checkExist (env : Env) (client : Client) (vm : VmInput) (output : VmOutput) :
    M ExistCheck :=
  if vm.Id ≠ "" then do
    let (describeInstancesResponse, err) ← describeInstancesFromCvm env client [vm.Id]
    match err with
    | some err => pure (ExistCheck.returnErr err)
    | none => do
      let response ← deref describeInstancesResponse
      let body ← deref response.Response
      if body.InstanceSet.length > 1 then
        pure (ExistCheck.returnErr VM_NOT_FOUND_ERROR)
      else if body.InstanceSet.length = 1 then do
        let requestId ← deref body.RequestId
        let inst ← index body.InstanceSet 0
        let inst ← deref inst
        let memory ← deref inst.Memory
        let cpu ← deref inst.CPU
        let state ← deref inst.InstanceState
        let ip ← index inst.PrivateIpAddresses 0
        let ip ← deref ip
        pure (ExistCheck.appendAndContinue
          { output with
            RequestId := requestId, Guid := vm.Guid, Id := vm.Id, Memory := Itoa memory,
            Cpu := Itoa cpu, InstanceState := state, InstancePrivateIp := ip })
      else
        pure ExistCheck.fallThrough
  else
    pure ExistCheck.fallThrough

/-- The `runInstanceRequest` value built at the top of the loop body. -/
def VMCreateAction.Do.runInstanceRequest (paramsMap : List (String × String)) (vm : VmInput) :
    QcloudRunInstanceStruct :=
  let runInstanceRequest : QcloudRunInstanceStruct :=
    { Placement := { Zone := mapGet paramsMap "AvailableZone" },
      ImageId := vm.ImageId,
      InstanceChargeType := vm.InstanceChargeType,
      InstanceType := vm.InstanceType,
      SystemDisk := { DiskType := "CLOUD_PREMIUM", DiskSize := vm.SystemDiskSize },
      VirtualPrivateCloud := { VpcId := vm.VpcId, SubnetId := vm.SubnetId },
      LoginSettings := { Password := vm.Password },
      InternetAccessible := { PublicIpAssigned := false, InternetMaxBandwidthOut := 10 } }
  let runInstanceRequest :=
    if vm.ProjectId ≠ 0 then
      { runInstanceRequest with
        Placement := { runInstanceRequest.Placement with ProjectId := vm.ProjectId } }
    else runInstanceRequest
  let runInstanceRequest :=
    if vm.InstancePrivateIp ≠ "" then
      { runInstanceRequest with
        VirtualPrivateCloud :=
          { runInstanceRequest.VirtualPrivateCloud with
            PrivateIpAddresses := [vm.InstancePrivateIp] } }
    else runInstanceRequest
  if vm.InstanceChargeType = INSTANCE_CHARGE_TYPE_PREPAID then
    { runInstanceRequest with
      InstanceChargePrepaid :=
        some { Period := vm.InstanceChargePeriod, RenewFlag := RENEW_FLAG_NOTIFY_AND_AUTO_RENEW } }
  else runInstanceRequest

/-- The request handed to `client.RunInstances`. -/
def VMCreateAction.Do.request (paramsMap : List (String × String)) (vm : VmInput) :
    RunInstancesRequest :=
  { data := VMCreateAction.Do.runInstanceRequest paramsMap vm,
    InstanceName := if vm.InstanceName ≠ "" then some vm.InstanceName else none }

/-- The part of the loop body of `VMCreateAction.Do` after the two existence
checks (lines 393-436): it returns `(nil, err)` or the output record to append. -/
def VMCreateAction.Do.create (env : Env) (client : Client) (paramsMap : List (String × String))
    (vm : VmInput) (output : VmOutput) : M (Option VmOutput × Option GoError) := do
  let request := VMCreateAction.Do.request paramsMap vm
  let (resp, err) ← Client.RunInstances env client request
  match err with
  | some err => pure (none, some err)
  | none => do
    let resp ← deref resp
    let respBody ← deref resp.Response
    let id ← index respBody.InstanceIdSet 0
    let id ← deref id
    let vm := { vm with Id := id }
    let _ ← deref respBody.RequestId
    let err ← waitVmInDesireState env client vm.Id INSTANCE_STATE_RUNNING 120 (waitFuel 120)
    match err with
    | some err => pure (none, some err)
    | none => do
      let (describeInstancesResponse, err) ← describeInstancesFromCvm env client [vm.Id]
      match err with
      | some err => pure (none, some err)
      | none => do
        let md5sum := env.Md5Encode (vm.Guid ++ vm.Seed)
        let key ← sliceTo md5sum 16
        let (password, err) := env.AesEncode key vm.Password
        match err with
        | some _ => pure (none, some (GoError.errorsNew "aes encode error"))
        | none => do
          let output := { output with Password := password }
          let response ← deref describeInstancesResponse
          let body ← deref response.Response
          let requestId ← deref body.RequestId
          let inst ← index body.InstanceSet 0
          let inst ← deref inst
          let memory ← deref inst.Memory
          let cpu ← deref inst.CPU
          let state ← deref inst.InstanceState
          let ip ← index inst.PrivateIpAddresses 0
          let ip ← deref ip
          pure (some
            { output with
              RequestId := requestId, Guid := vm.Guid, Id := vm.Id, Memory := Itoa memory,
              Cpu := Itoa cpu, InstanceState := state, InstancePrivateIp := ip }, none)

/-- The `range` loop of `VMCreateAction.Do` over the inputs still to process,
with the `outputs` built so far. -/
def VMCreateAction.Do.loop (env : Env) : List VmInput → VmOutputs → M (Any × Option GoError)
  | [], outputs => pure (Any.VmOutputsPtr outputs, none)
  | vm :: rest, outputs => do
    let output : VmOutput := {}
    let (paramsMap, _) := env.GetMapFromProviderParams vm.ProviderParams
    let (client, err) := createCvmClient env (mapGet paramsMap "Region")
      (mapGet paramsMap "SecretID") (mapGet paramsMap "SecretKey")
    match err with
    | some err => pure (Any.nil, some err)
    | none => do
      let vm ← (if vm.Password = "" then do
          let password ← CreateRandomPassword env
          pure { vm with Password := password }
        else pure vm)
      let check ← VMCreateAction.Do.checkExist env client vm output
      match check with
      | ExistCheck.returnErr err => pure (Any.nil, some err)
      | ExistCheck.appendAndContinue output =>
        VMCreateAction.Do.loop env rest { outputs with Outputs := outputs.Outputs ++ [output] }
      | ExistCheck.fallThrough => do
        let check ← VMCreateAction.Do.checkExist env client vm output
        match check with
        | ExistCheck.returnErr err => pure (Any.nil, some err)
        | ExistCheck.appendAndContinue output =>
          VMCreateAction.Do.loop env rest { outputs with Outputs := outputs.Outputs ++ [output] }
        | ExistCheck.fallThrough => do
          let (output, err) ← VMCreateAction.Do.create env client paramsMap vm output
          match err with
          | some err => pure (Any.nil, some err)
          | none => do
            let output ← deref output
            VMCreateAction.Do.loop env rest { outputs with Outputs := outputs.Outputs ++ [output] }

def VMCreateAction.Do (env : Env) (input : Any) : M (Any × Option GoError) :=
  VMCreateAction.Do.loop env (assertVmInputs input).Inputs {}

/-! ### VMTerminateAction -/

/-- The `range` loop of `VMTerminateAction.Do`. -/
def VMTerminateAction.Do.loop (env : Env) : List VmInput → VmOutputs → M (Any × Option GoError)
  | [], outputs => pure (Any.VmOutputsPtr outputs, none)
  | vm :: rest, outputs => do
    let (paramsMap, _) := env.GetMapFromProviderParams vm.ProviderParams
    let (client, err) := createCvmClient env (mapGet paramsMap "Region")
      (mapGet paramsMap "SecretID") (mapGet paramsMap "SecretKey")
    match err with
    | some err => pure (Any.nil, some err)
    | none => do
      let (response, err) ← Client.TerminateInstances env client [vm.Id]
      match err with
      | some err => pure (Any.nil, some err)
      | none => do
        let response ← deref response
        let body ← deref response.Response
        let requestId ← deref body.RequestId
        let err ← waitVmTerminateDone env client vm.Id 600 (waitFuel 600)
        match err with
        | some err => pure (Any.nil, some err)
        | none =>
          let output : VmOutput := { RequestId := requestId, Guid := vm.Guid, Id := vm.Id }
          VMTerminateAction.Do.loop env rest { outputs with Outputs := outputs.Outputs ++ [output] }

def VMTerminateAction.Do (env : Env) (input : Any) : M (Any × Option GoError) :=
  VMTerminateAction.Do.loop env (assertVmInputs input).Inputs {}

/-! ### VMStartAction -/

def VMStartAction.startInstance (env : Env) (vm : VmInput) : M (String × Option GoError) := do
  let (paramsMap, _) := env.GetMapFromProviderParams vm.ProviderParams
  let (client, err) := createCvmClient env (mapGet paramsMap "Region")
    (mapGet paramsMap "SecretID") (mapGet paramsMap "SecretKey")
  match err with
  | some err => pure ("", some err)
  | none => do
    let (response, err) ← Client.StartInstances env client [vm.Id]
    match err with
    | some err => pure ("", some err)
    | none => do
      let response ← deref response
      let body ← deref response.Response
      let requestId ← deref body.RequestId
      pure (requestId, none)

/-- The `range` loop of `VMStartAction.Do`. -/
def VMStartAction.Do.loop (env : Env) : List VmInput → VmOutputs → M (Any × Option GoError)
  | [], outputs => pure (Any.VmOutputsPtr outputs, none)
  | vm :: rest, outputs => do
    let (requestId, err) ← VMStartAction.startInstance env vm
    match err with
    | some err => pure (Any.nil, some err)
    | none =>
      let output : VmOutput := { RequestId := requestId, Guid := vm.Guid, Id := vm.Id }
      VMStartAction.Do.loop env rest { outputs with Outputs := outputs.Outputs ++ [output] }

def VMStartAction.Do (env : Env) (input : Any) : M (Any × Option GoError) :=
  VMStartAction.Do.loop env (assertVmInputs input).Inputs {}

/-! ### VMStopAction -/

def VMStopAction.stopInstance (env : Env) (vm : VmInput) : M (Option VmOutput × Option GoError) := do
  let (paramsMap, _) := env.GetMapFromProviderParams vm.ProviderParams
  let (client, err) := createCvmClient env (mapGet paramsMap "Region")
    (mapGet paramsMap "SecretID") (mapGet paramsMap "SecretKey")
  match err with
  | some err => pure (none, some err)
  | none => do
    let (response, err) ← Client.StopInstances env client [vm.Id]
    match err with
    | some err => pure (none, some err)
    | none => do
      let response ← deref response
      let body ← deref response.Response
      let requestId ← deref body.RequestId
      let output : VmOutput := { RequestId := requestId, Guid := vm.Guid, Id := vm.Id }
      pure (some output, none)

/-- The `range` loop of `VMStopAction.Do`. -/
def VMStopAction.Do.loop (env : Env) : List VmInput → VmOutputs → M (Any × Option GoError)
  | [], outputs => pure (Any.VmOutputsPtr outputs, none)
  | vm :: rest, outputs => do
    let (output, err) ← VMStopAction.stopInstance env vm
    match err with
    | some err => pure (Any.nil, some err)
    | none => do
      let output ← deref output
      VMStopAction.Do.loop env rest { outputs with Outputs := outputs.Outputs ++ [output] }

def VMStopAction.Do (env : Env) (input : Any) : M (Any × Option GoError) :=
  VMStopAction.Do.loop env (assertVmInputs input).Inputs {}

/-! ### VMBindSecurityGroupsAction -/

def BindCvmInstanceSecurityGroups (env : Env) (providerParams instanceId : String)
    (securityGroups : List String) : M (Option GoError) :=
  match env.GetMapFromProviderParams providerParams with
  | (_, some err) => pure (some err)
  | (paramsMap, none) =>
    match createCvmClient env (mapGet paramsMap "Region")
      (mapGet paramsMap "SecretID") (mapGet paramsMap "SecretKey") with
    | (_, some err) => pure (some err)
    | (client, none) => Client.ModifyInstancesAttribute env client [instanceId] securityGroups

def VMBindSecurityGroupsAction.ReadParam (env : Env) (param : Any) : M (Any × Option GoError) :=
  match env.UnmarshalJsonVmBindSecurityGroupInputs param with
  | (_, some err) => pure (Any.nil, some err)
  | (inputs, none) => pure (Any.VmBindSecurityGroupInputs inputs, none)

/-- The `range` loop of `VMBindSecurityGroupsAction.CheckParam`. -/
def VMBindSecurityGroupsAction.CheckParam.loop : List VmBindSecurityGroupInput → Option GoError
  | [] => none
  | input :: rest =>
    if input.ProviderParams = "" then some (GoError.errorsNew "providerParams is empty")
    else if input.InstanceId = "" then some (GoError.errorsNew "instanceId is empty")
    else if input.SecurityGroupIds = "" then some (GoError.errorsNew "securityGroupIds is empty")
    else VMBindSecurityGroupsAction.CheckParam.loop rest

def VMBindSecurityGroupsAction.CheckParam (input : Any) : M (Option GoError) :=
  match input with
  | Any.VmBindSecurityGroupInputs inputs =>
    pure (VMBindSecurityGroupsAction.CheckParam.loop inputs.Inputs)
  | _ => pure (some (GoError.errorsNew
      ("VMBindSecurityGroupsAction:input type=" ++ input.typeName ++ " not right")))

/-- The type assertion `inputs, _ := input.(VmBindSecurityGroupInputs)`. -/
def assertVmBindSecurityGroupInputs : Any → VmBindSecurityGroupInputs
  | Any.VmBindSecurityGroupInputs inputs => inputs
  | _ => {}

/-- The `range` loop of `VMBindSecurityGroupsAction.Do`. -/
def VMBindSecurityGroupsAction.Do.loop (env : Env) :
    List VmBindSecurityGroupInput → VmBindSecurityGroupOutputs → M (Any × Option GoError)
  | [], outputs => pure (Any.VmBindSecurityGroupOutputs outputs, none)
  | input :: rest, outputs => do
    let securityGroups := input.SecurityGroupIds.splitOn ","
    let err ← BindCvmInstanceSecurityGroups env input.ProviderParams input.InstanceId securityGroups
    match err with
    | some err => pure (Any.nil, some err)
    | none =>
      let output : VmBindSecurityGroupOutput := { Guid := input.Guid }
      VMBindSecurityGroupsAction.Do.loop env rest
        { outputs with Outputs := outputs.Outputs ++ [output] }

def VMBindSecurityGroupsAction.Do (env : Env) (input : Any) : M (Any × Option GoError) :=
  VMBindSecurityGroupsAction.Do.loop env (assertVmBindSecurityGroupInputs input).Inputs {}

/-! ### VmPlugin -/

def VMCreateAction (env : Env) : Action :=
  { ReadParam := VMAction.ReadParam env, CheckParam := VMCreateAction.CheckParam,
    Do := VMCreateAction.Do env }

def VMTerminateAction (env : Env) : Action :=
  { ReadParam := VMAction.ReadParam env, CheckParam := VMAction.CheckParam,
    Do := VMTerminateAction.Do env }

def VMStartAction (env : Env) : Action :=
  { ReadParam := VMAction.ReadParam env, CheckParam := VMAction.CheckParam,
    Do := VMStartAction.Do env }

def VMStopAction (env : Env) : Action :=
  { ReadParam := VMAction.ReadParam env, CheckParam := VMAction.CheckParam,
    Do := VMStopAction.Do env }

def VMBindSecurityGroupsAction (env : Env) : Action :=
  { ReadParam := VMBindSecurityGroupsAction.ReadParam env,
    CheckParam := VMBindSecurityGroupsAction.CheckParam,
    Do := VMBindSecurityGroupsAction.Do env }

/-- The package variable `VMActions` after `init`. -/
def VMActions (env : Env) : List (String × Action) :=
  [("create", VMCreateAction env), ("terminate", VMTerminateAction env),
   ("start", VMStartAction env), ("stop", VMStopAction env),
   ("bind-security-groups", VMBindSecurityGroupsAction env)]

def VmPlugin.GetActionByName (env : Env) (actionName : String) :
    M (Option Action × Option GoError) :=
  match (VMActions env).lookup actionName with
  | none => pure (none, some (GoError.errorsNew ("vmplugin,action[" ++ actionName ++ "] not found")))
  | some action => pure (some action, none)

def VmPlugin (env : Env) : Plugin := { GetActionByName := VmPlugin.GetActionByName env }

/-! ## Stages of `Process`, in the words of the specification -/

/-- Plugin lookup, action lookup, `ReadParam`, `CheckParam` and `Do` all
returned without an error, `Do` returning `results` and leaving world `w'`. -/
def AllStagesOk (plugins : Registry) (req : PluginRequest) (w : World) (results : Any)
    (w' : World) : Prop :=
  ∃ plugin action param w1 w2 w3,
    getPluginByName plugins req.Name = (some plugin, none) ∧
    plugin.GetActionByName req.Action w = Res.ok (some action, none) w1 ∧
    action.ReadParam req.Parameters w1 = Res.ok (param, none) w2 ∧
    action.CheckParam param w2 = Res.ok none w3 ∧
    action.Do param w3 = Res.ok (results, none) w'

/-- The first stage that returned an error returned `e`, leaving world `w'`;
`results` is what `Do` returned when that stage was `Do`, and nil otherwise. -/
def StageFailed (plugins : Registry) (req : PluginRequest) (w : World) (e : GoError)
    (results : Any) (w' : World) : Prop :=
  (∃ p, getPluginByName plugins req.Name = (p, some e) ∧ results = Any.nil ∧ w' = w) ∨
  (∃ plugin a, getPluginByName plugins req.Name = (some plugin, none) ∧
    plugin.GetActionByName req.Action w = Res.ok (a, some e) w' ∧ results = Any.nil) ∨
  (∃ plugin action p w1, getPluginByName plugins req.Name = (some plugin, none) ∧
    plugin.GetActionByName req.Action w = Res.ok (some action, none) w1 ∧
    action.ReadParam req.Parameters w1 = Res.ok (p, some e) w' ∧ results = Any.nil) ∨
  (∃ plugin action param w1 w2, getPluginByName plugins req.Name = (some plugin, none) ∧
    plugin.GetActionByName req.Action w = Res.ok (some action, none) w1 ∧
    action.ReadParam req.Parameters w1 = Res.ok (param, none) w2 ∧
    action.CheckParam param w2 = Res.ok (some e) w' ∧ results = Any.nil) ∨
  (∃ plugin action param w1 w2 w3, getPluginByName plugins req.Name = (some plugin, none) ∧
    plugin.GetActionByName req.Action w = Res.ok (some action, none) w1 ∧
    action.ReadParam req.Parameters w1 = Res.ok (param, none) w2 ∧
    action.CheckParam param w2 = Res.ok none w3 ∧
    action.Do param w3 = Res.ok (results, some e) w')

/-! ### plugins.go: registration -/

/-- Go `logrus.Fatalf` ends the process: `none`. Otherwise the registry with
the new entry; the name is not in the map then, so the entry is added in front. -/
def RegisterPlugin (plugins : Registry) (name : String) (plugin : Plugin) : Option Registry :=
  match plugins.lookup name with
  | some _ => none
  | none => some ((name, plugin) :: plugins)

/-- The plugin values that `init` registers besides `VmPlugin`; their types are
declared in files other than plugins.go and vm.go. -/
structure OtherPlugins where
  StoragePlugin : Plugin
  SecurityGroupPlugin : Plugin
  SubnetPlugin : Plugin
  NatGatewayPlugin : Plugin
  VpcPlugin : Plugin
  PeeringConnectionPlugin : Plugin
  RouteTablePlugin : Plugin
  MysqlVmPlugin : Plugin
  RedisPlugin : Plugin
  LogPlugin : Plugin
  ElasticNicPlugin : Plugin
  EIPPlugin : Plugin
  MariadbPlugin : Plugin
  RoutePolicyPlugin : Plugin
  ClbPlugin : Plugin
  CbsPlugin : Plugin

/-- The names and plugins that `init` of plugins.go registers, in its order. -/
def init.registrations (env : Env) (others : OtherPlugins) : List (String × Plugin) :=
  [("vm", VmPlugin env), ("storage", others.StoragePlugin),
   ("security-group", others.SecurityGroupPlugin), ("subnet", others.SubnetPlugin),
   ("nat-gateway", others.NatGatewayPlugin), ("vpc", others.VpcPlugin),
   ("peering-connection", others.PeeringConnectionPlugin),
   ("route-table", others.RouteTablePlugin), ("mysql-vm", others.MysqlVmPlugin),
   ("redis", others.RedisPlugin), ("log", others.LogPlugin),
   ("elastic-nic", others.ElasticNicPlugin), ("eip", others.EIPPlugin),
   ("mariadb", others.MariadbPlugin), ("route-policy", others.RoutePolicyPlugin),
   ("clb", others.ClbPlugin), ("cbs", others.CbsPlugin)]

/-- The `init` of plugins.go: the registrations one after the other, starting
from the empty map; `none` when one of them is fatal. -/
def init (env : Env) (others : OtherPlugins) : Option Registry :=
  (init.registrations env others).foldlM (fun plugins entry =>
    RegisterPlugin plugins entry.1 entry.2) []

/-! ## Vocabulary for statements about one input record -/

/-- The provider parameters of a record, as the loop bodies read them. -/
def paramsOf (env : Env) (vm : VmInput) : List (String × String) :=
  (env.GetMapFromProviderParams vm.ProviderParams).1

/-- The client the loop bodies build for a record. -/
def clientOf (env : Env) (vm : VmInput) : Client :=
  (createCvmClient env (mapGet (paramsOf env vm) "Region") (mapGet (paramsOf env vm) "SecretID")
    (mapGet (paramsOf env vm) "SecretKey")).1

/-- The error of building that client, if any. -/
def clientErrOf (env : Env) (vm : VmInput) : Option GoError :=
  (createCvmClient env (mapGet (paramsOf env vm) "Region") (mapGet (paramsOf env vm) "SecretID")
    (mapGet (paramsOf env vm) "SecretKey")).2

/-- The record after `VMCreateAction.Do` has filled in a missing password. -/
def withPassword (env : Env) (vm : VmInput) (w : World) : VmInput :=
  if vm.Password = "" then { vm with Password := env.CreateRandomPassword w.randDraws } else vm

/-- The world after `VMCreateAction.Do` has filled in a missing password. -/
def afterPassword (vm : VmInput) (w : World) : World :=
  if vm.Password = "" then { w with randDraws := w.randDraws + 1 } else w

/-- The world after further events. -/
def World.after (w : World) (events : List Event) : World :=
  { w with trace := w.trace ++ events }

/-- The output record the existence check builds from an observation. -/
def observedOutput (vm : VmInput) (requestId : String) (memory cpu : Int) (state ip : String) :
    VmOutput :=
  { Guid := vm.Guid, RequestId := requestId, Id := vm.Id, Memory := Itoa memory, Cpu := Itoa cpu,
    InstanceState := state, InstancePrivateIp := ip }

/-- A computation that the model runs to its end: it returns or panics. -/
def RunsOut {α : Type} (m : M α) : Prop :=
  ∀ w, (m w).isOutOfFuel = false

/-- A computation only appends to the trace. -/
def Grows {α : Type} (m : M α) : Prop :=
  ∀ w, ∃ more, (m w).world.trace = w.trace ++ more

/-! ## A test double of the collaborators -/

/-- The body of a describe response carrying the given instances. -/
def bodyOf (instances : List Instance) (requestId : String) : DescribeInstancesBody :=
  { InstanceSet := instances.map some, RequestId := some requestId }

/-- A describe response carrying the given instances. -/
def describeOk (instances : List Instance) (requestId : String) :
    Option DescribeInstancesResponse × Option GoError :=
  (some { Response := some (bodyOf instances requestId) }, none)

/-- A terminate, start or stop acknowledgement. -/
def ackOk (requestId : String) : Option RequestIdResponse × Option GoError :=
  (some { Response := some { RequestId := some requestId } }, none)

/-- A stub of the collaborators: the JSON helper passes typed inputs through,
every remote call is acknowledged, `RunInstances` hands out `ins-new`, and
`DescribeInstances` answers with `describe`. -/
def stubEnv (describe : List Event → List String → Option DescribeInstancesResponse × Option GoError) :
    Env :=
  { UnmarshalJsonVmInputs := fun param =>
      match param with
      | Any.VmInputs v => (v, none)
      | _ => ({}, some (GoError.foreign "json: cannot unmarshal"))
    UnmarshalJsonVmBindSecurityGroupInputs := fun param =>
      match param with
      | Any.VmBindSecurityGroupInputs v => (v, none)
      | _ => ({}, some (GoError.foreign "json: cannot unmarshal"))
    GetMapFromProviderParams := fun _ => ([("Region", "ap-guangzhou")], none)
    NewClient := fun _ _ _ => none
    CreateRandomPassword := fun _ => "Pw0"
    Md5Encode := fun _ => "0123456789abcdef0123456789abcdef"
    AesEncode := fun _ password => ("aes:" ++ password, none)
    DescribeInstances := fun history _ ids => describe history ids
    RunInstances := fun _ _ _ =>
      (some { Response := some { InstanceIdSet := [some "ins-new"], RequestId := some "req-run" } },
       none)
    TerminateInstances := fun _ _ _ => ackOk "req-terminate"
    StartInstances := fun _ _ _ => ackOk "req-start"
    StopInstances := fun _ _ _ => ackOk "req-stop"
    ModifyInstancesAttribute := fun _ _ _ _ => none }

/-- An instance as the specification's scenario observes it. -/
def runningInstance : Instance :=
  { InstanceState := some "RUNNING", CPU := some 2, Memory := some 4096,
    PrivateIpAddresses := [some "10.0.0.5"] }

/-- The output record of guid "g1" that reports `runningInstance`. -/
def scenarioOutput (id password : String) : VmOutput :=
  { Guid := "g1", RequestId := "req-describe", Id := id, Cpu := "2", Memory := "4096",
    Password := password, InstanceState := "RUNNING", InstancePrivateIp := "10.0.0.5" }

/-- A cloud in which every describe call finds `runningInstance`. -/
def alwaysRunning : Env := stubEnv (fun _ _ => describeOk [runningInstance] "req-describe")

/-- A registry holding the vm plugin only. -/
def vmRegistry (env : Env) : Registry := [("vm", VmPlugin env)]

/-- A cloud in which the created instance is seen running by the first describe
call and is gone from every later one. -/
def vanishingInstance : Env :=
  stubEnv (fun history _ =>
    if history.any isDescribe then describeOk [] "req-describe"
    else describeOk [runningInstance] "req-describe")

/-- A cloud in which every describe call finds one instance without a private
address. -/
def noPrivateAddress : Env :=
  stubEnv (fun _ _ =>
    describeOk [{ runningInstance with PrivateIpAddresses := [] }] "req-describe")

/-- A cloud whose `RunInstances` is acknowledged without an instance id. -/
def noInstanceId : Env :=
  { alwaysRunning with
    RunInstances := fun _ _ _ =>
      (some { Response := some { InstanceIdSet := [], RequestId := some "req-run" } }, none) }

/-- The create request of the specification's scenario. -/
def createRequest : PluginRequest :=
  { Name := "vm", Action := "create",
    Parameters := Any.VmInputs
      { Inputs := [{ Guid := "g1", ImageId := "img-1", InstanceType := "S1", SystemDiskSize := 50 }] } }

/-- The id the cloud gives to the instance made by the `n`-th `RunInstances`. -/
def assignedId : Nat → String
  | 0 => "ins-0"
  | 1 => "ins-1"
  | _ => "ins-n"

/-- The ids of the instances made so far, oldest first. -/
def instancesMade (history : List Event) : List String :=
  (List.range (history.countP isRunInstances)).map assignedId

/-- A cloud that keeps what it is asked to make: `RunInstances` adds a running instance
under an id the cloud chooses, and `DescribeInstances` lists the
instances made so far whose id is asked for. -/
def keepingCloud : Env :=
  { stubEnv (fun history ids =>
      describeOk (((instancesMade history).filter (fun id => ids.contains id)).map
        (fun _ => runningInstance)) "req-describe") with
    RunInstances := fun history _ _ =>
      (some { Response := some { InstanceIdSet := [some (assignedId (history.countP isRunInstances))],
                                 RequestId := some "req-run" } }, none) }

/-! ## Vocabulary for statements about the wait loops -/

/-- The events of `n` polls of instance `id`: a sleep of 5, then a describe call. -/
def pollEvents (id : String) : Nat → List Event
  | 0 => []
  | n + 1 => Event.sleep 5 :: Event.DescribeInstances [id] :: pollEvents id n

/-- What the describe call of poll number `k + 1` answers, for a loop entered in
world `w`: `k` polls and one sleep come before it. -/
def pollResponse (env : Env) (client : Client) (id : String) (w : World) (k : Nat) :
    Option DescribeInstancesResponse × Option GoError :=
  env.DescribeInstances (w.trace ++ pollEvents id k ++ [Event.sleep 5]) client [id]

/-- The poll returns without error and its observation is not in the desired
state: exactly one instance, in another state. -/
def Pending (desireState : String) (r : Option DescribeInstancesResponse × Option GoError) : Prop :=
  ∃ body inst state, r = (some ⟨some body⟩, none) ∧ body.InstanceSet = [some inst] ∧
    inst.InstanceState = some state ∧ state ≠ desireState

/-- The poll's observation is in the desired state. -/
def Reached (desireState : String) (r : Option DescribeInstancesResponse × Option GoError) : Prop :=
  ∃ body inst, r = (some ⟨some body⟩, none) ∧ body.InstanceSet = [some inst] ∧
    inst.InstanceState = some desireState

/-- The poll returns without error and still lists an instance. -/
def StillListed (r : Option DescribeInstancesResponse × Option GoError) : Prop :=
  ∃ body, r = (some ⟨some body⟩, none) ∧ body.InstanceSet ≠ []

/-- The poll returns without error and lists no instance. -/
def Gone (r : Option DescribeInstancesResponse × Option GoError) : Prop :=
  ∃ body, r = (some ⟨some body⟩, none) ∧ body.InstanceSet = []

/-- The loop variable `count` after `k` more turns of `count++`. -/
def countAfter (count : Int) : Nat → Int
  | 0 => count
  | k + 1 => countAfter (wrapInt (count + 1)) k

def isSleep : Event → Bool
  | Event.sleep _ => true
  | _ => false

/-- A cloud in which every describe call finds one instance that is stopped. -/
def alwaysStopped : Env :=
  stubEnv (fun _ _ => describeOk [{ runningInstance with InstanceState := some "STOPPED" }]
    "req-describe")

/-- A cloud whose describe call lists one instance three times and none after. -/
def goneAfterThree : Env :=
  stubEnv (fun history _ =>
    if history.countP isDescribe < 3 then describeOk [runningInstance] "req-describe"
    else describeOk [] "req-describe")

/-- A cloud whose describe call answers once and fails from then on. -/
def failingSecond : Env :=
  stubEnv (fun history _ =>
    if history.countP isDescribe < 1 then
      describeOk [{ runningInstance with InstanceState := some "PENDING" }] "req-describe"
    else (none, some (GoError.foreign "RequestLimitExceeded")))

/-- The client the stubs are called with. -/
def stubClient : Client := ⟨"ap-guangzhou", "", ""⟩

/-- The output record `VMCreateAction.Do` builds for a record it created under instance
id `id`, from the observation made after the wait. -/
def createdOutput (vm : VmInput) (id requestId : String) (memory cpu : Int)
    (state ip password : String) : VmOutput :=
  { Guid := vm.Guid, RequestId := requestId, Id := id, Memory := Itoa memory, Cpu := Itoa cpu,
    Password := password, InstanceState := state, InstancePrivateIp := ip }

/-- The events of creating one instance: the `RunInstances` call, `n` polls of
the wait, and the describe call that follows the wait. -/
def createEvents (request : RunInstancesRequest) (id : String) (n : Nat) : List Event :=
  Event.RunInstances request :: (pollEvents id n ++ [Event.DescribeInstances [id]])

/-! ## Vocabulary for statements about a batch -/

/-- Sixteen times the same plugin, for the registrations besides "vm". -/
def sameOthers (p : Plugin) : OtherPlugins :=
  ⟨p, p, p, p, p, p, p, p, p, p, p, p, p, p, p, p⟩

/-! ## Theorems -/

theorem bind_ok {α β : Type} (m : M α) (f : α → M β) (w w1 : World) (a : α)
    (h : m w = Res.ok a w1) : (m >>= f) w = f a w1 := by
  show M.bind m f w = f a w1
  simp [M.bind, h]

theorem getPluginByName_cases (plugins : Registry) (name : String) :
    (∃ plugin, getPluginByName plugins name = (some plugin, none)) ∨
    getPluginByName plugins name =
      (none, some (GoError.errorsNew ("plugin[" ++ name ++ "] not found"))) := by
  unfold getPluginByName
  cases plugins.lookup name <;> simp

theorem Process_of_allStagesOk (plugins : Registry) (req : PluginRequest) (w w' : World)
    (results : Any) (h : AllStagesOk plugins req w results w') :
    Process plugins req w = Res.ok (⟨"0", "success", results⟩, none) w' := by
  obtain ⟨plugin, action, param, w1, w2, w3, h0, h1, h2, h3, h4⟩ := h
  simp [Process, h0, bind, M.bind, deref, pure, M.pure, h1, h2, h3, h4, Process.deferred]

theorem Process_of_stageFailed (plugins : Registry) (req : PluginRequest) (w w' : World)
    (e : GoError) (results : Any) (h : StageFailed plugins req w e results w') :
    Process plugins req w = Res.ok (⟨"1", e.Error, results⟩, some e) w' := by
  rcases h with ⟨p, h0, hr, hw⟩ | ⟨plugin, a, h0, h1, hr⟩ | ⟨plugin, action, p, w1, h0, h1, h2, hr⟩ |
    ⟨plugin, action, param, w1, w2, h0, h1, h2, h3, hr⟩ |
    ⟨plugin, action, param, w1, w2, w3, h0, h1, h2, h3, h4⟩
  · simp [Process, h0, pure, M.pure, Process.deferred, hr, hw]
  · simp [Process, h0, bind, M.bind, deref, pure, M.pure, h1, Process.deferred, hr]
  · simp [Process, h0, bind, M.bind, deref, pure, M.pure, h1, h2, Process.deferred, hr]
  · simp [Process, h0, bind, M.bind, deref, pure, M.pure, h1, h2, h3, Process.deferred, hr]
  · simp [Process, h0, bind, M.bind, deref, pure, M.pure, h1, h2, h3, h4, Process.deferred]

theorem Process_returns_inv (plugins : Registry) (req : PluginRequest) (w w' : World)
    (resp : PluginResponse) (err : Option GoError)
    (h : Process plugins req w = Res.ok (resp, err) w') :
    (err = none ∧ resp.ResultCode = "0" ∧ resp.ResultMsg = "success" ∧
      AllStagesOk plugins req w resp.Results w') ∨
    (∃ e, err = some e ∧ resp.ResultCode = "1" ∧ resp.ResultMsg = e.Error ∧
      StageFailed plugins req w e resp.Results w') := by
  unfold Process at h
  rcases h0 : getPluginByName plugins req.Name with ⟨p, e0⟩
  rw [h0] at h
  cases e0 with
  | some e =>
    simp only [pure, M.pure, Res.ok.injEq, Prod.mk.injEq] at h
    obtain ⟨⟨rfl, rfl⟩, rfl⟩ := h
    exact Or.inr ⟨e, rfl, rfl, rfl, Or.inl ⟨p, h0, rfl, rfl⟩⟩
  | none =>
    cases p with
    | none => simp [bind, M.bind, deref, goPanic] at h
    | some plugin =>
      simp only [bind, M.bind, deref, pure, M.pure] at h
      rcases h1 : plugin.GetActionByName req.Action w with ⟨⟨a, e1⟩, w1⟩ | ⟨msg, w1⟩ | ⟨w1⟩
      · rw [h1] at h
        cases e1 with
        | some e =>
          simp only [Res.ok.injEq, Prod.mk.injEq] at h
          obtain ⟨⟨rfl, rfl⟩, rfl⟩ := h
          exact Or.inr ⟨e, rfl, rfl, rfl, Or.inr (Or.inl ⟨plugin, a, h0, h1, rfl⟩)⟩
        | none =>
          cases a with
          | none => simp [goPanic, M.bind] at h
          | some action =>
            simp only [M.bind, M.pure] at h
            rcases h2 : action.ReadParam req.Parameters w1 with ⟨⟨param, e2⟩, w2⟩ | ⟨msg, w2⟩ | ⟨w2⟩
            · rw [h2] at h
              cases e2 with
              | some e =>
                simp only [Res.ok.injEq, Prod.mk.injEq] at h
                obtain ⟨⟨rfl, rfl⟩, rfl⟩ := h
                exact Or.inr ⟨e, rfl, rfl, rfl,
                  Or.inr (Or.inr (Or.inl ⟨plugin, action, param, w1, h0, h1, h2, rfl⟩))⟩
              | none =>
                simp only [M.bind, M.pure] at h
                rcases h3 : action.CheckParam param w2 with ⟨e3, w3⟩ | ⟨msg, w3⟩ | ⟨w3⟩
                · rw [h3] at h
                  cases e3 with
                  | some e =>
                    simp only [Res.ok.injEq, Prod.mk.injEq] at h
                    obtain ⟨⟨rfl, rfl⟩, rfl⟩ := h
                    exact Or.inr ⟨e, rfl, rfl, rfl, Or.inr (Or.inr (Or.inr (Or.inl
                      ⟨plugin, action, param, w1, w2, h0, h1, h2, h3, rfl⟩)))⟩
                  | none =>
                    simp only [M.bind, M.pure] at h
                    rcases h4 : action.Do param w3 with ⟨⟨results, e4⟩, w4⟩ | ⟨msg, w4⟩ | ⟨w4⟩
                    · rw [h4] at h
                      simp only [Res.ok.injEq, Prod.mk.injEq] at h
                      obtain ⟨⟨rfl, rfl⟩, rfl⟩ := h
                      cases e4 with
                      | some e =>
                        exact Or.inr ⟨e, rfl, rfl, rfl, Or.inr (Or.inr (Or.inr (Or.inr
                          ⟨plugin, action, param, w1, w2, w3, h0, h1, h2, h3, h4⟩)))⟩
                      | none =>
                        exact Or.inl ⟨rfl, rfl, rfl,
                          ⟨plugin, action, param, w1, w2, w3, h0, h1, h2, h3, h4⟩⟩
                    · rw [h4] at h; simp at h
                    · rw [h4] at h; simp at h
                · rw [h3] at h; simp at h
                · rw [h3] at h; simp at h
            · rw [h2] at h; simp at h
            · rw [h2] at h; simp at h
      · rw [h1] at h; simp at h
      · rw [h1] at h; simp at h

/-- C1: `Process` answers with result code "0", message "success" and the value
of `Do` exactly when plugin lookup, action lookup, `ReadParam`, `CheckParam` and
`Do` all returned without error, and with result code "1" and the text of the
error of the first failing stage otherwise. -/
theorem Process_result_code_contract (plugins : Registry) (req : PluginRequest) (w : World) :
    (∀ results w', AllStagesOk plugins req w results w' →
      Process plugins req w = Res.ok (⟨"0", "success", results⟩, none) w') ∧
    (∀ e results w', StageFailed plugins req w e results w' →
      Process plugins req w = Res.ok (⟨"1", e.Error, results⟩, some e) w') ∧
    (∀ resp err w', Process plugins req w = Res.ok (resp, err) w' →
      (resp.ResultCode = "0" ↔ AllStagesOk plugins req w resp.Results w') ∧
      (resp.ResultCode = "0" → resp.ResultMsg = "success" ∧ err = none) ∧
      (resp.ResultCode ≠ "0" → resp.ResultCode = "1" ∧
        ∃ e, err = some e ∧ StageFailed plugins req w e resp.Results w' ∧
          resp.ResultMsg = e.Error)) := by
  refine ⟨fun results w' h => Process_of_allStagesOk plugins req w w' results h,
    fun e results w' h => Process_of_stageFailed plugins req w w' e results h, ?_⟩
  intro resp err w' h
  rcases Process_returns_inv plugins req w w' resp err h with
    ⟨he, hc, hm, hs⟩ | ⟨e, he, hc, hm, hs⟩
  · exact ⟨⟨fun _ => hs, fun _ => hc⟩, fun _ => ⟨hm, he⟩, fun hne => absurd hc hne⟩
  · have hne : resp.ResultCode ≠ "0" := by rw [hc]; decide
    refine ⟨⟨fun h0 => absurd h0 hne, fun hs' => ?_⟩, fun h0 => absurd h0 hne,
      fun _ => ⟨hc, e, he, hs, hm⟩⟩
    have h2 := Process_of_allStagesOk plugins req w w' resp.Results hs'
    rw [h] at h2
    simp only [Res.ok.injEq, Prod.mk.injEq] at h2
    rw [h2.1.1]

/-- C1 at a concrete request: starting one vm against the stub succeeds. -/
theorem Process_result_code_contract_witness :
    Process (vmRegistry alwaysRunning)
        { Name := "vm", Action := "start",
          Parameters := Any.VmInputs { Inputs := [{ Guid := "g1", Id := "ins-1" }] } } {} =
      Res.ok (⟨"0", "success",
          Any.VmOutputsPtr { Outputs := [{ Guid := "g1", RequestId := "req-start", Id := "ins-1" }] }⟩,
        none) { trace := [Event.StartInstances ["ins-1"]] } :=
  (Process_result_code_contract (vmRegistry alwaysRunning) _ {}).1 _ _
    ⟨VmPlugin alwaysRunning, VMStartAction alwaysRunning,
      Any.VmInputs { Inputs := [{ Guid := "g1", Id := "ins-1" }] }, {}, {}, {},
      by rfl, by rfl, by rfl, by rfl, by rfl⟩

theorem getPluginByName_unregistered (plugins : Registry) (name : String)
    (h : ∀ p ∈ plugins, p.1 ≠ name) :
    getPluginByName plugins name =
      (none, some (GoError.errorsNew ("plugin[" ++ name ++ "] not found"))) := by
  have hl : plugins.lookup name = none := by
    rw [List.lookup_eq_none_iff]
    intro p hp
    simpa [bne_iff_ne] using fun (heq : name = p.1) => h p hp heq.symm
  simp [getPluginByName, hl]

/-- C2: for a plugin name that is not registered, `Process` answers with result
code "1" and the message "plugin[n] not found"; the world is left as it was,
whatever the registered plugins and their actions do, so neither
`GetActionByName`, `ReadParam`, `CheckParam` nor `Do` ran and no remote call
was made. -/
theorem Process_unregistered_plugin (plugins : Registry) (req : PluginRequest) (w : World)
    (h : ∀ p ∈ plugins, p.1 ≠ req.Name) :
    Process plugins req w =
      Res.ok (⟨"1", "plugin[" ++ req.Name ++ "] not found", Any.nil⟩,
        some (GoError.errorsNew ("plugin[" ++ req.Name ++ "] not found"))) w ∧
    (Process plugins req w).world.trace = w.trace := by
  have h0 := getPluginByName_unregistered plugins req.Name h
  have h1 : Process plugins req w =
      Res.ok (⟨"1", "plugin[" ++ req.Name ++ "] not found", Any.nil⟩,
        some (GoError.errorsNew ("plugin[" ++ req.Name ++ "] not found"))) w := by
    simp [Process, h0, pure, M.pure, Process.deferred, GoError.Error]
  exact ⟨h1, by rw [h1]; rfl⟩

/-- C2 at a concrete request: "storage" is not in a registry holding only "vm". -/
theorem Process_unregistered_plugin_witness :
    Process (vmRegistry alwaysRunning) { Name := "storage", Action := "create" } {} =
      Res.ok (⟨"1", "plugin[storage] not found", Any.nil⟩,
        some (GoError.errorsNew "plugin[storage] not found")) {} :=
  (Process_unregistered_plugin (vmRegistry alwaysRunning)
    { Name := "storage", Action := "create" } {} (by decide)).1

theorem VMAction_CheckParam_loop_empty_id (vms : List VmInput)
    (h : ∃ vm ∈ vms, vm.Id = "") :
    VMAction.CheckParam.loop vms = some (GoError.errorsNew "input instance_id is empty") := by
  induction vms with
  | nil => simp at h
  | cons vm rest ih =>
    unfold VMAction.CheckParam.loop
    by_cases hid : vm.Id = ""
    · simp [hid]
    · simp only [hid, if_false]
      apply ih
      obtain ⟨x, hx, hxid⟩ := h
      rcases List.mem_cons.mp hx with rfl | hx
      · exact absurd hxid hid
      · exact ⟨x, hx, hxid⟩

theorem VmPlugin_GetActionByName_checked (env : Env) (actionName : String)
    (h : actionName = "terminate" ∨ actionName = "start" ∨ actionName = "stop") (w : World) :
    ∃ action, VmPlugin.GetActionByName env actionName w = Res.ok (some action, none) w ∧
      action.ReadParam = VMAction.ReadParam env ∧ action.CheckParam = VMAction.CheckParam := by
  rcases h with rfl | rfl | rfl
  · exact ⟨VMTerminateAction env, rfl, rfl, rfl⟩
  · exact ⟨VMStartAction env, rfl, rfl, rfl⟩
  · exact ⟨VMStopAction env, rfl, rfl, rfl⟩

/-- C3: `Process` stops at the first failing stage. When `ReadParam` returns an
error the response carries that error and the world is the one `ReadParam`
left (neither `CheckParam` nor `Do` ran); when `CheckParam` returns an error
the response carries that error and the world is the one `CheckParam` left,
whatever `Do` is (it did not run). For vm terminate, start and stop, a record
with an empty id gives "input instance_id is empty" and an unchanged trace. -/
theorem Process_stops_at_first_failure (plugins : Registry) (req : PluginRequest) (w : World) :
    (∀ plugin action p e w1 w2,
      getPluginByName plugins req.Name = (some plugin, none) →
      plugin.GetActionByName req.Action w = Res.ok (some action, none) w1 →
      action.ReadParam req.Parameters w1 = Res.ok (p, some e) w2 →
      Process plugins req w = Res.ok (⟨"1", e.Error, Any.nil⟩, some e) w2) ∧
    (∀ plugin action param e w1 w2 w3,
      getPluginByName plugins req.Name = (some plugin, none) →
      plugin.GetActionByName req.Action w = Res.ok (some action, none) w1 →
      action.ReadParam req.Parameters w1 = Res.ok (param, none) w2 →
      action.CheckParam param w2 = Res.ok (some e) w3 →
      Process plugins req w = Res.ok (⟨"1", e.Error, Any.nil⟩, some e) w3) ∧
    (∀ env vms,
      plugins.lookup req.Name = some (VmPlugin env) →
      (req.Action = "terminate" ∨ req.Action = "start" ∨ req.Action = "stop") →
      env.UnmarshalJsonVmInputs req.Parameters = (vms, none) →
      (∃ vm ∈ vms.Inputs, vm.Id = "") →
      Process plugins req w =
        Res.ok (⟨"1", "input instance_id is empty", Any.nil⟩,
          some (GoError.errorsNew "input instance_id is empty")) w) := by
  refine ⟨?_, ?_, ?_⟩
  · intro plugin action p e w1 w2 h0 h1 h2
    exact Process_of_stageFailed plugins req w w2 e Any.nil
      (Or.inr (Or.inr (Or.inl ⟨plugin, action, p, w1, h0, h1, h2, rfl⟩)))
  · intro plugin action param e w1 w2 w3 h0 h1 h2 h3
    exact Process_of_stageFailed plugins req w w3 e Any.nil
      (Or.inr (Or.inr (Or.inr (Or.inl ⟨plugin, action, param, w1, w2, h0, h1, h2, h3, rfl⟩))))
  · intro env vms hl ha hu hv
    obtain ⟨action, hg, hr, hc⟩ := VmPlugin_GetActionByName_checked env req.Action ha w
    have h0 : getPluginByName plugins req.Name = (some (VmPlugin env), none) := by
      simp [getPluginByName, hl]
    have h2 : action.ReadParam req.Parameters w = Res.ok (Any.VmInputs vms, none) w := by
      rw [hr]; simp [VMAction.ReadParam, hu, pure, M.pure]
    have h3 : action.CheckParam (Any.VmInputs vms) w =
        Res.ok (some (GoError.errorsNew "input instance_id is empty")) w := by
      rw [hc]
      simp [VMAction.CheckParam, VMAction_CheckParam_loop_empty_id vms.Inputs hv, pure, M.pure]
    exact Process_of_stageFailed plugins req w w (GoError.errorsNew "input instance_id is empty")
      Any.nil (Or.inr (Or.inr (Or.inr (Or.inl
        ⟨VmPlugin env, action, Any.VmInputs vms, w, w, h0, hg, h2, h3, rfl⟩))))

/-- C3 at a concrete request: terminating a record without an id. -/
theorem Process_stops_at_first_failure_witness :
    Process (vmRegistry alwaysRunning)
        { Name := "vm", Action := "terminate",
          Parameters := Any.VmInputs { Inputs := [{ Guid := "g1", Id := "" }] } } {} =
      Res.ok (⟨"1", "input instance_id is empty", Any.nil⟩,
        some (GoError.errorsNew "input instance_id is empty")) {} :=
  (Process_stops_at_first_failure (vmRegistry alwaysRunning)
    { Name := "vm", Action := "terminate",
      Parameters := Any.VmInputs { Inputs := [{ Guid := "g1", Id := "" }] } } {}).2.2
    alwaysRunning { Inputs := [{ Guid := "g1", Id := "" }] } (by rfl) (by decide) (by rfl)
    ⟨{ Guid := "g1", Id := "" }, by simp, by rfl⟩

/-- C4 fails on the code: `Process` panics with an index out of range, and so
returns no response, when the describe call after the wait finds no instance,
when the one instance found has no private address, and when `RunInstances` is
acknowledged without an instance id. -/
theorem Process_create_panics :
    Process (vmRegistry vanishingInstance) createRequest {} =
      Res.panic indexOutOfRange
        { trace := [Event.RunInstances
              (VMCreateAction.Do.request [("Region", "ap-guangzhou")]
                { Guid := "g1", ImageId := "img-1", InstanceType := "S1", SystemDiskSize := 50,
                  Password := "Pw0" }),
            Event.sleep 5, Event.DescribeInstances ["ins-new"],
            Event.DescribeInstances ["ins-new"]],
          randDraws := 1 } ∧
    (Process (vmRegistry noPrivateAddress)
      { Name := "vm", Action := "create",
        Parameters := Any.VmInputs { Inputs := [{ Guid := "g1", Id := "ins-1", Password := "p" }] } }
      {}) = Res.panic indexOutOfRange { trace := [Event.DescribeInstances ["ins-1"]] } ∧
    (Process (vmRegistry noInstanceId) createRequest {}).isPanic = true := by
  refine ⟨by rfl, by rfl, by rfl⟩

/-! ### Reasoning about `M` -/

theorem bind_eq_ok {α β : Type} (m : M α) (f : α → M β) (w w' : World) (b : β) :
    (m >>= f) w = Res.ok b w' ↔ ∃ a w1, m w = Res.ok a w1 ∧ f a w1 = Res.ok b w' := by
  show M.bind m f w = Res.ok b w' ↔ _
  unfold M.bind
  cases h : m w with
  | ok a w1 =>
    constructor
    · intro hf; exact ⟨a, w1, rfl, hf⟩
    · rintro ⟨a1, w2, heq, hf⟩
      simp only [Res.ok.injEq] at heq
      obtain ⟨rfl, rfl⟩ := heq
      exact hf
  | panic msg w1 => simp
  | outOfFuel w1 => simp

theorem pure_eq_ok {α : Type} (a b : α) (w w' : World) :
    (pure a : M α) w = Res.ok b w' ↔ a = b ∧ w = w' := by
  show M.pure a w = Res.ok b w' ↔ _
  simp [M.pure]

theorem deref_eq_ok {α : Type} (x : Option α) (a : α) (w w' : World) :
    deref x w = Res.ok a w' ↔ x = some a ∧ w = w' := by
  cases x with
  | none => simp [deref, goPanic]
  | some y => simp [deref, pure_eq_ok]

theorem index_eq_ok {α : Type} (xs : List α) (i : Nat) (a : α) (w w' : World) :
    index xs i w = Res.ok a w' ↔ xs.get? i = some a ∧ w = w' := by
  unfold index
  cases h : xs.get? i with
  | none => simp [goPanic]
  | some y => simp [pure_eq_ok]

/-! ### Output records follow the input records -/

theorem VMStartAction_Do_loop_guids (env : Env) (inputs : List VmInput) :
    ∀ (outputs : VmOutputs) (w w' : World) (r : Any),
      VMStartAction.Do.loop env inputs outputs w = Res.ok (r, none) w' →
      ∃ outs, r = Any.VmOutputsPtr outs ∧
        outs.Outputs.map VmOutput.Guid =
          outputs.Outputs.map VmOutput.Guid ++ inputs.map VmInput.Guid := by
  induction inputs with
  | nil =>
    intro outputs w w' r h
    simp only [VMStartAction.Do.loop, pure_eq_ok, Prod.mk.injEq] at h
    exact ⟨outputs, h.1.1.symm, by simp⟩
  | cons vm rest ih =>
    intro outputs w w' r h
    simp only [VMStartAction.Do.loop, bind_eq_ok] at h
    obtain ⟨⟨requestId, err⟩, w1, _, h2⟩ := h
    cases err with
    | some e => simp [pure_eq_ok] at h2
    | none =>
      obtain ⟨outs, hr, hg⟩ := ih _ _ _ _ h2
      exact ⟨outs, hr, by simp [hg]⟩

theorem VMStopAction_stopInstance_guid (env : Env) (vm : VmInput) (w w' : World)
    (output : Option VmOutput)
    (h : VMStopAction.stopInstance env vm w = Res.ok (output, none) w') :
    ∃ o, output = some o ∧ o.Guid = vm.Guid ∧ o.Id = vm.Id := by
  unfold VMStopAction.stopInstance at h
  simp only [createCvmClient] at h
  generalize env.NewClient _ _ _ = c at h
  cases c with
  | some e => simp [pure_eq_ok] at h
  | none =>
    simp only [bind_eq_ok] at h
    obtain ⟨⟨response, err⟩, w1, _, h2⟩ := h
    cases err with
    | some e => simp [pure_eq_ok] at h2
    | none =>
      simp only [bind_eq_ok, deref_eq_ok, pure_eq_ok, Prod.mk.injEq] at h2
      obtain ⟨_, _, _, _, _, _, _, _, _, ⟨ho, _⟩, _⟩ := h2
      exact ⟨_, ho.symm, rfl, rfl⟩

theorem VMStopAction_Do_loop_guids (env : Env) (inputs : List VmInput) :
    ∀ (outputs : VmOutputs) (w w' : World) (r : Any),
      VMStopAction.Do.loop env inputs outputs w = Res.ok (r, none) w' →
      ∃ outs, r = Any.VmOutputsPtr outs ∧
        outs.Outputs.map VmOutput.Guid =
          outputs.Outputs.map VmOutput.Guid ++ inputs.map VmInput.Guid := by
  induction inputs with
  | nil =>
    intro outputs w w' r h
    simp only [VMStopAction.Do.loop, pure_eq_ok, Prod.mk.injEq] at h
    exact ⟨outputs, h.1.1.symm, by simp⟩
  | cons vm rest ih =>
    intro outputs w w' r h
    simp only [VMStopAction.Do.loop, bind_eq_ok] at h
    obtain ⟨⟨output, err⟩, w1, h1, h2⟩ := h
    cases err with
    | some e => simp [pure_eq_ok] at h2
    | none =>
      obtain ⟨o, rfl, hg, _⟩ := VMStopAction_stopInstance_guid env vm w w1 output h1
      simp only [bind_eq_ok, deref_eq_ok] at h2
      obtain ⟨o', w2, ⟨ho, rfl⟩, h3⟩ := h2
      simp only [Option.some.injEq] at ho
      subst ho
      obtain ⟨outs, hr, hgs⟩ := ih _ _ _ _ h3
      exact ⟨outs, hr, by simp [hgs, hg]⟩

theorem VMTerminateAction_Do_loop_guids (env : Env) (inputs : List VmInput) :
    ∀ (outputs : VmOutputs) (w w' : World) (r : Any),
      VMTerminateAction.Do.loop env inputs outputs w = Res.ok (r, none) w' →
      ∃ outs, r = Any.VmOutputsPtr outs ∧
        outs.Outputs.map VmOutput.Guid =
          outputs.Outputs.map VmOutput.Guid ++ inputs.map VmInput.Guid := by
  induction inputs with
  | nil =>
    intro outputs w w' r h
    simp only [VMTerminateAction.Do.loop, pure_eq_ok, Prod.mk.injEq] at h
    exact ⟨outputs, h.1.1.symm, by simp⟩
  | cons vm rest ih =>
    intro outputs w w' r h
    simp only [VMTerminateAction.Do.loop, createCvmClient] at h
    generalize env.NewClient _ _ _ = c at h
    cases c with
    | some e => simp [pure_eq_ok] at h
    | none =>
      simp only [bind_eq_ok] at h
      obtain ⟨⟨response, err⟩, w1, _, h2⟩ := h
      cases err with
      | some e => simp [pure_eq_ok] at h2
      | none =>
        simp only [bind_eq_ok, deref_eq_ok] at h2
        obtain ⟨_, _, _, _, _, _, _, _, _, err2, w5, _, h3⟩ := h2
        cases err2 with
        | some e => simp [pure_eq_ok] at h3
        | none =>
          obtain ⟨outs, hr, hgs⟩ := ih _ _ _ _ h3
          exact ⟨outs, hr, by simp [hgs]⟩

theorem VMBindSecurityGroupsAction_Do_loop_guids (env : Env)
    (inputs : List VmBindSecurityGroupInput) :
    ∀ (outputs : VmBindSecurityGroupOutputs) (w w' : World) (r : Any),
      VMBindSecurityGroupsAction.Do.loop env inputs outputs w = Res.ok (r, none) w' →
      ∃ outs, r = Any.VmBindSecurityGroupOutputs outs ∧
        outs.Outputs.map VmBindSecurityGroupOutput.Guid =
          outputs.Outputs.map VmBindSecurityGroupOutput.Guid ++
            inputs.map VmBindSecurityGroupInput.Guid := by
  induction inputs with
  | nil =>
    intro outputs w w' r h
    simp only [VMBindSecurityGroupsAction.Do.loop, pure_eq_ok, Prod.mk.injEq] at h
    exact ⟨outputs, h.1.1.symm, by simp⟩
  | cons input rest ih =>
    intro outputs w w' r h
    simp only [VMBindSecurityGroupsAction.Do.loop, bind_eq_ok] at h
    obtain ⟨err, w1, _, h2⟩ := h
    cases err with
    | some e => simp [pure_eq_ok] at h2
    | none =>
      obtain ⟨outs, hr, hgs⟩ := ih _ _ _ _ h2
      exact ⟨outs, hr, by simp [hgs]⟩

theorem VMCreateAction_checkExist_guid (env : Env) (client : Client) (vm : VmInput)
    (output o : VmOutput) (w w' : World)
    (h : VMCreateAction.Do.checkExist env client vm output w =
      Res.ok (ExistCheck.appendAndContinue o) w') :
    o.Guid = vm.Guid := by
  unfold VMCreateAction.Do.checkExist at h
  by_cases hid : vm.Id = ""
  · simp [hid, pure_eq_ok] at h
  · simp only [ne_eq, hid, not_false_eq_true, if_true, bind_eq_ok] at h
    obtain ⟨⟨response, err⟩, w1, _, h2⟩ := h
    cases err with
    | some e => simp [pure_eq_ok] at h2
    | none =>
      simp only [bind_eq_ok, deref_eq_ok] at h2
      obtain ⟨r, w2, _, body, w3, _, h3⟩ := h2
      by_cases hgt : body.InstanceSet.length > 1
      · simp [hgt, pure_eq_ok] at h3
      · by_cases h1 : body.InstanceSet.length = 1
        · simp only [h1, gt_iff_lt, lt_self_iff_false, if_false, if_true, bind_eq_ok,
            deref_eq_ok, index_eq_ok, pure_eq_ok, ExistCheck.appendAndContinue.injEq] at h3
          obtain ⟨_, _, _, _, _, _, _, _, _, _, _, _, _, _, _, _, _, _, _, _, _, _, _, _, ho, _⟩ := h3
          rw [← ho]
        · simp [hgt, h1, pure_eq_ok] at h3

theorem VMCreateAction_create_guid (env : Env) (client : Client)
    (paramsMap : List (String × String)) (vm : VmInput) (output : VmOutput)
    (o : Option VmOutput) (w w' : World)
    (h : VMCreateAction.Do.create env client paramsMap vm output w = Res.ok (o, none) w') :
    ∃ out, o = some out ∧ out.Guid = vm.Guid := by
  unfold VMCreateAction.Do.create at h
  simp only [bind_eq_ok] at h
  obtain ⟨⟨resp, err⟩, w1, _, h2⟩ := h
  cases err with
  | some e => simp [pure_eq_ok] at h2
  | none =>
    simp only [bind_eq_ok, deref_eq_ok, index_eq_ok] at h2
    obtain ⟨_, _, _, _, _, _, _, _, _, _, _, _, _, _, _, err2, w6, _, h3⟩ := h2
    cases err2 with
    | some e => simp [pure_eq_ok] at h3
    | none =>
      simp only [bind_eq_ok] at h3
      obtain ⟨⟨dresp, err3⟩, w7, _, h4⟩ := h3
      cases err3 with
      | some e => simp [pure_eq_ok] at h4
      | none =>
        simp only [bind_eq_ok] at h4
        obtain ⟨key, w8, _, h5⟩ := h4
        generalize hpw : vm.Password = pw at h5
        have haes : ∀ x : String × Option GoError, x = env.AesEncode key pw →
            (x.2 = none ∨ ∃ e, x.2 = some e) := fun x _ => by
          cases x.2 with
          | none => exact Or.inl rfl
          | some e => exact Or.inr ⟨e, rfl⟩
        rcases haes _ rfl with hn | ⟨e, hs⟩
        · simp only [hn] at h5
          simp only [bind_eq_ok, deref_eq_ok, index_eq_ok, pure_eq_ok, Prod.mk.injEq] at h5
          obtain ⟨_, _, _, _, _, _, _, _, _, _, _, _, _, _, _, _, _, _, _, _, _, _, _, _, _, _, _,
            _, _, _, ⟨ho, _⟩, _⟩ := h5
          exact ⟨_, ho.symm, rfl⟩
        · simp [hs, pure_eq_ok] at h5

theorem VMCreateAction_Do_loop_guids (env : Env) (inputs : List VmInput) :
    ∀ (outputs : VmOutputs) (w w' : World) (r : Any),
      VMCreateAction.Do.loop env inputs outputs w = Res.ok (r, none) w' →
      ∃ outs, r = Any.VmOutputsPtr outs ∧
        outs.Outputs.map VmOutput.Guid =
          outputs.Outputs.map VmOutput.Guid ++ inputs.map VmInput.Guid := by
  induction inputs with
  | nil =>
    intro outputs w w' r h
    simp only [VMCreateAction.Do.loop, pure_eq_ok, Prod.mk.injEq] at h
    exact ⟨outputs, h.1.1.symm, by simp⟩
  | cons vm rest ih =>
    intro outputs w w' r h
    simp only [VMCreateAction.Do.loop, createCvmClient] at h
    generalize env.NewClient _ _ _ = c at h
    cases c with
    | some e => simp [pure_eq_ok] at h
    | none =>
      simp only [bind_eq_ok] at h
      obtain ⟨vm1, w1, hvm, check, w2, hc1, h2⟩ := h
      have hg1 : vm1.Guid = vm.Guid := by
        by_cases hp : vm.Password = ""
        · simp only [hp, if_true, bind_eq_ok, pure_eq_ok] at hvm
          obtain ⟨_, _, _, hv, _⟩ := hvm
          rw [← hv]
        · simp only [hp, if_false, pure_eq_ok] at hvm
          rw [← hvm.1]
      cases check with
      | returnErr e => simp [pure_eq_ok] at h2
      | appendAndContinue o =>
        have hg := VMCreateAction_checkExist_guid env _ vm1 _ o w1 w2 hc1
        obtain ⟨outs, hr, hgs⟩ := ih _ _ _ _ h2
        exact ⟨outs, hr, by simp [hgs, hg, hg1]⟩
      | fallThrough =>
        simp only [bind_eq_ok] at h2
        obtain ⟨check2, w3, hc2, h3⟩ := h2
        cases check2 with
        | returnErr e => simp [pure_eq_ok] at h3
        | appendAndContinue o =>
          have hg := VMCreateAction_checkExist_guid env _ vm1 _ o w2 w3 hc2
          obtain ⟨outs, hr, hgs⟩ := ih _ _ _ _ h3
          exact ⟨outs, hr, by simp [hgs, hg, hg1]⟩
        | fallThrough =>
          simp only [bind_eq_ok] at h3
          obtain ⟨⟨o, err⟩, w4, hcr, h4⟩ := h3
          cases err with
          | some e => simp [pure_eq_ok] at h4
          | none =>
            obtain ⟨out, rfl, hg⟩ := VMCreateAction_create_guid env _ _ vm1 _ o w3 w4 hcr
            simp only [bind_eq_ok, deref_eq_ok] at h4
            obtain ⟨o', w5, ⟨ho, rfl⟩, h5⟩ := h4
            simp only [Option.some.injEq] at ho
            subst ho
            obtain ⟨outs, hr, hgs⟩ := ih _ _ _ _ h5
            exact ⟨outs, hr, by simp [hgs, hg, hg1]⟩

theorem follow_of_map_eq {α β : Type} (f : α → String) (g : β → String) (outs : List α)
    (ins : List β) (h : outs.map f = [] ++ ins.map g) :
    outs.length = ins.length ∧ ∀ i, (outs.get? i).map f = (ins.get? i).map g := by
  simp only [List.nil_append] at h
  constructor
  · have := congrArg List.length h
    simpa using this
  · intro i
    simp only [List.get?_eq_getElem?, ← List.getElem?_map, h]

/-- C5: whenever the `Do` of a vm action (create, terminate, start, stop,
bind-security-groups) returns without error, its value is an output list with
as many records as the input list, and the i-th output record carries the Guid
of the i-th input record. -/
theorem Do_outputs_follow_inputs (env : Env) (input : Any) (w w' : World) (r : Any) :
    (VMCreateAction.Do env input w = Res.ok (r, none) w' →
      ∃ outs, r = Any.VmOutputsPtr outs ∧
        outs.Outputs.length = (assertVmInputs input).Inputs.length ∧
        ∀ i, (outs.Outputs.get? i).map VmOutput.Guid =
          ((assertVmInputs input).Inputs.get? i).map VmInput.Guid) ∧
    (VMTerminateAction.Do env input w = Res.ok (r, none) w' →
      ∃ outs, r = Any.VmOutputsPtr outs ∧
        outs.Outputs.length = (assertVmInputs input).Inputs.length ∧
        ∀ i, (outs.Outputs.get? i).map VmOutput.Guid =
          ((assertVmInputs input).Inputs.get? i).map VmInput.Guid) ∧
    (VMStartAction.Do env input w = Res.ok (r, none) w' →
      ∃ outs, r = Any.VmOutputsPtr outs ∧
        outs.Outputs.length = (assertVmInputs input).Inputs.length ∧
        ∀ i, (outs.Outputs.get? i).map VmOutput.Guid =
          ((assertVmInputs input).Inputs.get? i).map VmInput.Guid) ∧
    (VMStopAction.Do env input w = Res.ok (r, none) w' →
      ∃ outs, r = Any.VmOutputsPtr outs ∧
        outs.Outputs.length = (assertVmInputs input).Inputs.length ∧
        ∀ i, (outs.Outputs.get? i).map VmOutput.Guid =
          ((assertVmInputs input).Inputs.get? i).map VmInput.Guid) ∧
    (VMBindSecurityGroupsAction.Do env input w = Res.ok (r, none) w' →
      ∃ outs, r = Any.VmBindSecurityGroupOutputs outs ∧
        outs.Outputs.length = (assertVmBindSecurityGroupInputs input).Inputs.length ∧
        ∀ i, (outs.Outputs.get? i).map VmBindSecurityGroupOutput.Guid =
          ((assertVmBindSecurityGroupInputs input).Inputs.get? i).map
            VmBindSecurityGroupInput.Guid) := by
  refine ⟨fun h => ?_, fun h => ?_, fun h => ?_, fun h => ?_, fun h => ?_⟩
  · obtain ⟨outs, hr, hg⟩ := VMCreateAction_Do_loop_guids env _ _ _ _ _ h
    exact ⟨outs, hr, follow_of_map_eq _ _ _ _ hg⟩
  · obtain ⟨outs, hr, hg⟩ := VMTerminateAction_Do_loop_guids env _ _ _ _ _ h
    exact ⟨outs, hr, follow_of_map_eq _ _ _ _ hg⟩
  · obtain ⟨outs, hr, hg⟩ := VMStartAction_Do_loop_guids env _ _ _ _ _ h
    exact ⟨outs, hr, follow_of_map_eq _ _ _ _ hg⟩
  · obtain ⟨outs, hr, hg⟩ := VMStopAction_Do_loop_guids env _ _ _ _ _ h
    exact ⟨outs, hr, follow_of_map_eq _ _ _ _ hg⟩
  · obtain ⟨outs, hr, hg⟩ := VMBindSecurityGroupsAction_Do_loop_guids env _ _ _ _ _ h
    exact ⟨outs, hr, follow_of_map_eq _ _ _ _ hg⟩

/-- C5 at a concrete input: creating two records, the first already existing
and found by the existence check, the second created. -/
theorem Do_outputs_follow_inputs_witness :
    ∃ outs,
      Any.VmOutputsPtr
        { Outputs :=
            [{ Guid := "g1", RequestId := "req-describe", Id := "ins-1", Cpu := "2",
               Memory := "4096", InstanceState := "RUNNING", InstancePrivateIp := "10.0.0.5" },
             { Guid := "g2", RequestId := "req-describe", Id := "ins-new", Cpu := "2",
               Memory := "4096", Password := "aes:p", InstanceState := "RUNNING",
               InstancePrivateIp := "10.0.0.5" }] } = Any.VmOutputsPtr outs ∧
      outs.Outputs.length = 2 ∧
      ∀ i, (outs.Outputs.get? i).map VmOutput.Guid =
        (([{ Guid := "g1", Id := "ins-1", Password := "p" },
           { Guid := "g2", Password := "p" }] : List VmInput).get? i).map VmInput.Guid :=
  (Do_outputs_follow_inputs alwaysRunning
    (Any.VmInputs { Inputs := [{ Guid := "g1", Id := "ins-1", Password := "p" },
                               { Guid := "g2", Password := "p" }] })
    {} { trace := [Event.DescribeInstances ["ins-1"],
                   Event.RunInstances (VMCreateAction.Do.request [("Region", "ap-guangzhou")]
                     { Guid := "g2", Password := "p" }),
                   Event.sleep 5, Event.DescribeInstances ["ins-new"],
                   Event.DescribeInstances ["ins-new"]] } _).1 (by rfl)

/-! ### The trace only grows -/

theorem grows_pure {α : Type} (a : α) : Grows (pure a : M α) :=
  fun _ => ⟨[], by simp [pure, M.pure, Res.world]⟩

theorem grows_goPanic {α : Type} (msg : String) : Grows (goPanic msg : M α) :=
  fun _ => ⟨[], by simp [goPanic, Res.world]⟩

theorem grows_bind {α β : Type} (m : M α) (f : α → M β) (hm : Grows m) (hf : ∀ a, Grows (f a)) :
    Grows (m >>= f) := by
  intro w
  show ∃ more, (M.bind m f w).world.trace = w.trace ++ more
  obtain ⟨more1, h1⟩ := hm w
  unfold M.bind
  cases h : m w with
  | ok a w1 =>
    rw [h] at h1
    obtain ⟨more2, h2⟩ := hf a w1
    refine ⟨more1 ++ more2, ?_⟩
    simp only [Res.world] at h1
    simp [h2, h1]
  | panic msg w1 => rw [h] at h1; exact ⟨more1, h1⟩
  | outOfFuel w1 => rw [h] at h1; exact ⟨more1, h1⟩

theorem grows_deref {α : Type} (x : Option α) : Grows (deref x) := by
  cases x with
  | none => exact grows_goPanic _
  | some a => exact grows_pure a

theorem grows_index {α : Type} (xs : List α) (i : Nat) : Grows (index xs i) := by
  unfold index
  cases xs.get? i with
  | none => exact grows_goPanic _
  | some a => exact grows_pure a

theorem grows_sliceTo (s : String) (n : Nat) : Grows (sliceTo s n) := by
  unfold sliceTo
  split
  · exact grows_goPanic _
  · exact grows_pure _

theorem grows_Sleep (n : Nat) : Grows (Sleep n) :=
  fun _ => ⟨[Event.sleep n], rfl⟩

theorem grows_CreateRandomPassword (env : Env) : Grows (CreateRandomPassword env) :=
  fun _ => ⟨[], by simp [CreateRandomPassword, Res.world]⟩

theorem grows_describeInstancesFromCvm (env : Env) (client : Client) (ids : List String) :
    Grows (describeInstancesFromCvm env client ids) :=
  fun _ => ⟨[Event.DescribeInstances ids], rfl⟩

theorem grows_RunInstances (env : Env) (client : Client) (request : RunInstancesRequest) :
    Grows (Client.RunInstances env client request) :=
  fun _ => ⟨[Event.RunInstances request], rfl⟩

theorem grows_getInstanceByInstanceId (env : Env) (client : Client) (instanceId : String) :
    Grows (getInstanceByInstanceId env client instanceId) := by
  unfold getInstanceByInstanceId
  refine grows_bind _ _ (grows_describeInstancesFromCvm _ _ _) ?_
  rintro ⟨response, err⟩
  cases err with
  | some e => exact grows_pure _
  | none =>
    refine grows_bind _ _ (grows_deref _) fun r => grows_bind _ _ (grows_deref _) fun body => ?_
    split
    · exact grows_pure _
    · exact grows_bind _ _ (grows_index _ _) fun _ => grows_pure _

theorem grows_waitVmInDesireState_loop (env : Env) (client : Client)
    (instanceId desireState : String) (timeout : Int) (fuel : Nat) :
    ∀ count, Grows (waitVmInDesireState.loop env client instanceId desireState timeout fuel count) := by
  induction fuel with
  | zero => intro count w; exact ⟨[], by simp [waitVmInDesireState.loop, Res.world]⟩
  | succ n ih =>
    intro count
    unfold waitVmInDesireState.loop
    refine grows_bind _ _ (grows_Sleep 5) fun _ =>
      grows_bind _ _ (grows_getInstanceByInstanceId _ _ _) ?_
    rintro ⟨inst, err⟩
    cases err with
    | some e => exact grows_pure _
    | none =>
      refine grows_bind _ _ (grows_deref _) fun i => grows_bind _ _ (grows_deref _) fun st => ?_
      split
      · exact grows_pure _
      · dsimp only
        split
        · exact grows_pure _
        · exact ih _

theorem grows_waitVmTerminateDone_loop (env : Env) (client : Client)
    (instanceId : String) (timeout : Int) (fuel : Nat) :
    ∀ count, Grows (waitVmTerminateDone.loop env client instanceId timeout fuel count) := by
  induction fuel with
  | zero => intro count w; exact ⟨[], by simp [waitVmTerminateDone.loop, Res.world]⟩
  | succ n ih =>
    intro count
    unfold waitVmTerminateDone.loop
    refine grows_bind _ _ (grows_Sleep 5) fun _ =>
      grows_bind _ _ (grows_describeInstancesFromCvm _ _ _) ?_
    rintro ⟨response, err⟩
    cases err with
    | some e => exact grows_pure _
    | none =>
      refine grows_bind _ _ (grows_deref _) fun r => grows_bind _ _ (grows_deref _) fun body => ?_
      split
      · exact grows_pure _
      · dsimp only
        split
        · exact grows_pure _
        · exact ih _

theorem grows_checkExist (env : Env) (client : Client) (vm : VmInput) (output : VmOutput) :
    Grows (VMCreateAction.Do.checkExist env client vm output) := by
  unfold VMCreateAction.Do.checkExist
  split
  · refine grows_bind _ _ (grows_describeInstancesFromCvm _ _ _) ?_
    rintro ⟨response, err⟩
    cases err with
    | some e => exact grows_pure _
    | none =>
      refine grows_bind _ _ (grows_deref _) fun r => grows_bind _ _ (grows_deref _) fun body => ?_
      split
      · exact grows_pure _
      · split
        · exact grows_bind _ _ (grows_deref _) fun _ =>
            grows_bind _ _ (grows_index _ _) fun _ =>
            grows_bind _ _ (grows_deref _) fun _ =>
            grows_bind _ _ (grows_deref _) fun _ =>
            grows_bind _ _ (grows_deref _) fun _ =>
            grows_bind _ _ (grows_deref _) fun _ =>
            grows_bind _ _ (grows_index _ _) fun _ =>
            grows_bind _ _ (grows_deref _) fun _ => grows_pure _
        · exact grows_pure _
  · exact grows_pure _

theorem bind_trace_after {α β : Type} (m : M α) (f : α → M β) (w : World) (pre : List Event)
    (hm : ∃ more, (m w).world.trace = w.trace ++ pre ++ more) (hf : ∀ a, Grows (f a)) :
    ∃ more, ((m >>= f) w).world.trace = w.trace ++ pre ++ more := by
  show ∃ more, (M.bind m f w).world.trace = w.trace ++ pre ++ more
  obtain ⟨more1, h1⟩ := hm
  unfold M.bind
  cases h : m w with
  | ok a w1 =>
    rw [h] at h1
    obtain ⟨more2, h2⟩ := hf a w1
    refine ⟨more1 ++ more2, ?_⟩
    simp only [Res.world] at h1
    simp [h2, h1]
  | panic msg w1 => rw [h] at h1; exact ⟨more1, h1⟩
  | outOfFuel w1 => rw [h] at h1; exact ⟨more1, h1⟩

/-- The first event of `VMCreateAction.Do.create` is its `RunInstances` call,
whatever follows. -/
theorem create_trace (env : Env) (client : Client) (paramsMap : List (String × String))
    (vm : VmInput) (output : VmOutput) (w : World) :
    ∃ more, (VMCreateAction.Do.create env client paramsMap vm output w).world.trace =
      w.trace ++ [Event.RunInstances (VMCreateAction.Do.request paramsMap vm)] ++ more := by
  unfold VMCreateAction.Do.create
  refine bind_trace_after _ _ w _ ⟨[], by simp [Client.RunInstances, Res.world]⟩ ?_
  rintro ⟨resp, err⟩
  cases err with
  | some e => exact grows_pure _
  | none =>
    refine grows_bind _ _ (grows_deref _) fun _ => grows_bind _ _ (grows_deref _) fun _ =>
      grows_bind _ _ (grows_index _ _) fun _ => grows_bind _ _ (grows_deref _) fun _ =>
      grows_bind _ _ (grows_deref _) fun _ =>
      grows_bind _ _ (grows_waitVmInDesireState_loop _ _ _ _ _ _ _) ?_
    intro err2
    cases err2 with
    | some e => exact grows_pure _
    | none =>
      refine grows_bind _ _ (grows_describeInstancesFromCvm _ _ _) ?_
      rintro ⟨dresp, err3⟩
      cases err3 with
      | some e => exact grows_pure _
      | none =>
        refine grows_bind _ _ (grows_sliceTo _ _) fun key => ?_
        dsimp only
        split
        · exact grows_pure _
        · exact grows_bind _ _ (grows_deref _) fun _ =>
            grows_bind _ _ (grows_deref _) fun _ =>
            grows_bind _ _ (grows_deref _) fun _ =>
            grows_bind _ _ (grows_index _ _) fun _ =>
            grows_bind _ _ (grows_deref _) fun _ =>
            grows_bind _ _ (grows_deref _) fun _ =>
            grows_bind _ _ (grows_deref _) fun _ =>
            grows_bind _ _ (grows_deref _) fun _ =>
            grows_bind _ _ (grows_index _ _) fun _ =>
            grows_bind _ _ (grows_deref _) fun _ => grows_pure _

theorem grows_create (env : Env) (client : Client) (paramsMap : List (String × String))
    (vm : VmInput) (output : VmOutput) :
    Grows (VMCreateAction.Do.create env client paramsMap vm output) := by
  intro w
  obtain ⟨more, h⟩ := create_trace env client paramsMap vm output w
  exact ⟨[Event.RunInstances (VMCreateAction.Do.request paramsMap vm)] ++ more, by
    rw [h, List.append_assoc]⟩

theorem grows_VMCreateAction_Do_loop (env : Env) (inputs : List VmInput) :
    ∀ outputs, Grows (VMCreateAction.Do.loop env inputs outputs) := by
  induction inputs with
  | nil => intro outputs; unfold VMCreateAction.Do.loop; exact grows_pure _
  | cons vm rest ih =>
    intro outputs
    unfold VMCreateAction.Do.loop
    dsimp only
    split
    · exact grows_pure _
    · refine grows_bind _ _ ?_ fun vm1 => grows_bind _ _ (grows_checkExist _ _ _ _) fun check => ?_
      · split
        · exact grows_bind _ _ (grows_CreateRandomPassword _) fun _ => grows_pure _
        · exact grows_pure _
      · cases check with
        | returnErr e => exact grows_pure _
        | appendAndContinue o => exact ih _
        | fallThrough =>
          refine grows_bind _ _ (grows_checkExist _ _ _ _) fun check2 => ?_
          cases check2 with
          | returnErr e => exact grows_pure _
          | appendAndContinue o => exact ih _
          | fallThrough =>
            refine grows_bind _ _ (grows_create _ _ _ _ _) ?_
            rintro ⟨o, err⟩
            cases err with
            | some e => exact grows_pure _
            | none => exact grows_bind _ _ (grows_deref _) fun _ => ih _

/-! ### The existence check of `VMCreateAction.Do` -/

theorem checkExist_no_id (env : Env) (client : Client) (vm : VmInput) (output : VmOutput)
    (w : World) (hid : vm.Id = "") :
    VMCreateAction.Do.checkExist env client vm output w = Res.ok ExistCheck.fallThrough w := by
  simp [VMCreateAction.Do.checkExist, hid, pure, M.pure]

theorem checkExist_describe_err (env : Env) (client : Client) (vm : VmInput) (output : VmOutput)
    (w : World) (r : Option DescribeInstancesResponse) (e : GoError) (hid : vm.Id ≠ "")
    (hd : env.DescribeInstances w.trace client [vm.Id] = (r, some e)) :
    VMCreateAction.Do.checkExist env client vm output w =
      Res.ok (ExistCheck.returnErr e) (w.after [Event.DescribeInstances [vm.Id]]) := by
  simp [VMCreateAction.Do.checkExist, hid, describeInstancesFromCvm, Client.DescribeInstances,
    hd, bind, M.bind, pure, M.pure, World.after]

theorem checkExist_zero (env : Env) (client : Client) (vm : VmInput) (output : VmOutput)
    (w : World) (body : DescribeInstancesBody) (hid : vm.Id ≠ "")
    (hd : env.DescribeInstances w.trace client [vm.Id] = (some ⟨some body⟩, none))
    (hset : body.InstanceSet = []) :
    VMCreateAction.Do.checkExist env client vm output w =
      Res.ok ExistCheck.fallThrough (w.after [Event.DescribeInstances [vm.Id]]) := by
  simp [VMCreateAction.Do.checkExist, hid, describeInstancesFromCvm, Client.DescribeInstances,
    hd, bind, M.bind, deref, pure, M.pure, hset, World.after]

theorem checkExist_many (env : Env) (client : Client) (vm : VmInput) (output : VmOutput)
    (w : World) (body : DescribeInstancesBody) (hid : vm.Id ≠ "")
    (hd : env.DescribeInstances w.trace client [vm.Id] = (some ⟨some body⟩, none))
    (hset : body.InstanceSet.length > 1) :
    VMCreateAction.Do.checkExist env client vm output w =
      Res.ok (ExistCheck.returnErr VM_NOT_FOUND_ERROR)
        (w.after [Event.DescribeInstances [vm.Id]]) := by
  simp [VMCreateAction.Do.checkExist, hid, describeInstancesFromCvm, Client.DescribeInstances,
    hd, bind, M.bind, deref, pure, M.pure, hset, World.after]

theorem checkExist_one (env : Env) (client : Client) (vm : VmInput) (output : VmOutput)
    (w : World) (body : DescribeInstancesBody) (inst : Instance) (requestId state ip : String)
    (memory cpu : Int) (hid : vm.Id ≠ "")
    (hd : env.DescribeInstances w.trace client [vm.Id] = (some ⟨some body⟩, none))
    (hset : body.InstanceSet = [some inst]) (hrid : body.RequestId = some requestId)
    (hm : inst.Memory = some memory) (hc : inst.CPU = some cpu)
    (hst : inst.InstanceState = some state)
    (hip : inst.PrivateIpAddresses.get? 0 = some (some ip)) :
    VMCreateAction.Do.checkExist env client vm output w =
      Res.ok (ExistCheck.appendAndContinue
        { output with
          RequestId := requestId, Guid := vm.Guid, Id := vm.Id, Memory := Itoa memory,
          Cpu := Itoa cpu, InstanceState := state, InstancePrivateIp := ip })
        (w.after [Event.DescribeInstances [vm.Id]]) := by
  rw [List.get?_eq_getElem?] at hip
  simp [VMCreateAction.Do.checkExist, hid, describeInstancesFromCvm, Client.DescribeInstances,
    hd, bind, M.bind, deref, index, pure, M.pure, hset, hrid, hm, hc, hst, hip, World.after]

theorem checkExist_one_outcome (env : Env) (client : Client) (vm : VmInput) (output : VmOutput)
    (w : World) (body : DescribeInstancesBody) (hid : vm.Id ≠ "")
    (hd : env.DescribeInstances w.trace client [vm.Id] = (some ⟨some body⟩, none))
    (hset : body.InstanceSet.length = 1) :
    (∃ o, o.Guid = vm.Guid ∧ o.Id = vm.Id ∧
      VMCreateAction.Do.checkExist env client vm output w =
        Res.ok (ExistCheck.appendAndContinue o) (w.after [Event.DescribeInstances [vm.Id]])) ∨
    (∃ msg, VMCreateAction.Do.checkExist env client vm output w =
        Res.panic msg (w.after [Event.DescribeInstances [vm.Id]])) := by
  obtain ⟨x, hx⟩ := List.length_eq_one.mp hset
  rcases hrid : body.RequestId with _ | rid
  · right
    exact ⟨nilDeref, by
      simp [VMCreateAction.Do.checkExist, hid, describeInstancesFromCvm, Client.DescribeInstances,
        hd, bind, M.bind, deref, index, pure, M.pure, hx, hrid, goPanic, World.after]⟩
  rcases x with _ | inst
  · right
    exact ⟨nilDeref, by
      simp [VMCreateAction.Do.checkExist, hid, describeInstancesFromCvm, Client.DescribeInstances,
        hd, bind, M.bind, deref, index, pure, M.pure, hx, hrid, goPanic, World.after]⟩
  rcases hm : inst.Memory with _ | m
  · right
    exact ⟨nilDeref, by
      simp [VMCreateAction.Do.checkExist, hid, describeInstancesFromCvm, Client.DescribeInstances,
        hd, bind, M.bind, deref, index, pure, M.pure, hx, hrid, hm, goPanic, World.after]⟩
  rcases hc : inst.CPU with _ | c
  · right
    exact ⟨nilDeref, by
      simp [VMCreateAction.Do.checkExist, hid, describeInstancesFromCvm, Client.DescribeInstances,
        hd, bind, M.bind, deref, index, pure, M.pure, hx, hrid, hm, hc, goPanic, World.after]⟩
  rcases hst : inst.InstanceState with _ | st
  · right
    exact ⟨nilDeref, by
      simp [VMCreateAction.Do.checkExist, hid, describeInstancesFromCvm, Client.DescribeInstances,
        hd, bind, M.bind, deref, index, pure, M.pure, hx, hrid, hm, hc, hst, goPanic,
        World.after]⟩
  rcases hip : inst.PrivateIpAddresses.get? 0 with _ | ip0
  · right
    rw [List.get?_eq_getElem?] at hip
    exact ⟨indexOutOfRange, by
      simp [VMCreateAction.Do.checkExist, hid, describeInstancesFromCvm, Client.DescribeInstances,
        hd, bind, M.bind, deref, index, pure, M.pure, hx, hrid, hm, hc, hst, hip, goPanic,
        World.after]⟩
  rcases ip0 with _ | ip
  · right
    rw [List.get?_eq_getElem?] at hip
    exact ⟨nilDeref, by
      simp [VMCreateAction.Do.checkExist, hid, describeInstancesFromCvm, Client.DescribeInstances,
        hd, bind, M.bind, deref, index, pure, M.pure, hx, hrid, hm, hc, hst, hip, goPanic,
        World.after]⟩
  · left
    exact ⟨_, rfl, rfl, checkExist_one env client vm output w body inst rid st ip m c hid hd hx hrid
      hm hc hst hip⟩

theorem withPassword_Id (env : Env) (vm : VmInput) (w : World) :
    (withPassword env vm w).Id = vm.Id := by
  unfold withPassword; split <;> rfl

theorem withPassword_Guid (env : Env) (vm : VmInput) (w : World) :
    (withPassword env vm w).Guid = vm.Guid := by
  unfold withPassword; split <;> rfl

theorem afterPassword_trace (vm : VmInput) (w : World) :
    (afterPassword vm w).trace = w.trace := by
  unfold afterPassword; split <;> rfl

/-- One turn of the loop of `VMCreateAction.Do` once the client is built: the
two existence checks, then the creation. -/
theorem VMCreateAction_Do_loop_cons (env : Env) (vm : VmInput) (rest : List VmInput)
    (outputs : VmOutputs) (w : World) (hclient : clientErrOf env vm = none) :
    VMCreateAction.Do.loop env (vm :: rest) outputs w =
      (VMCreateAction.Do.checkExist env (clientOf env vm) (withPassword env vm w) {} >>=
        fun check =>
          match check with
          | ExistCheck.returnErr err => pure (Any.nil, some err)
          | ExistCheck.appendAndContinue output =>
            VMCreateAction.Do.loop env rest { outputs with Outputs := outputs.Outputs ++ [output] }
          | ExistCheck.fallThrough =>
            VMCreateAction.Do.checkExist env (clientOf env vm) (withPassword env vm w) {} >>=
              fun check =>
                match check with
                | ExistCheck.returnErr err => pure (Any.nil, some err)
                | ExistCheck.appendAndContinue output =>
                  VMCreateAction.Do.loop env rest
                    { outputs with Outputs := outputs.Outputs ++ [output] }
                | ExistCheck.fallThrough =>
                  VMCreateAction.Do.create env (clientOf env vm) (paramsOf env vm)
                      (withPassword env vm w) {} >>=
                    fun r =>
                      match r.2 with
                      | some err => pure (Any.nil, some err)
                      | none => deref r.1 >>= fun output =>
                        VMCreateAction.Do.loop env rest
                          { outputs with Outputs := outputs.Outputs ++ [output] })
        (afterPassword vm w) := by
  rw [VMCreateAction.Do.loop]
  simp only [clientErrOf, paramsOf] at hclient
  simp only [hclient, clientOf, paramsOf, withPassword, afterPassword]
  by_cases hp : vm.Password = ""
  · simp only [hp, if_true, bind, M.bind, CreateRandomPassword, pure, M.pure]
  · simp only [hp, if_false, bind, M.bind, pure, M.pure]

theorem VMCreateAction_Do_loop_existing (env : Env) (vm : VmInput) (rest : List VmInput)
    (outputs : VmOutputs) (w : World) (hid : vm.Id ≠ "") (hclient : clientErrOf env vm = none)
    (body : DescribeInstancesBody) (inst : Instance) (requestId state ip : String)
    (memory cpu : Int)
    (hd : env.DescribeInstances w.trace (clientOf env vm) [vm.Id] = (some ⟨some body⟩, none))
    (hset : body.InstanceSet = [some inst]) (hrid : body.RequestId = some requestId)
    (hm : inst.Memory = some memory) (hc : inst.CPU = some cpu)
    (hst : inst.InstanceState = some state)
    (hip : inst.PrivateIpAddresses.get? 0 = some (some ip)) :
    VMCreateAction.Do.loop env (vm :: rest) outputs w =
      VMCreateAction.Do.loop env rest
        { Outputs := outputs.Outputs ++ [observedOutput vm requestId memory cpu state ip] }
        ((afterPassword vm w).after [Event.DescribeInstances [vm.Id]]) := by
  have hid1 : (withPassword env vm w).Id ≠ "" := by rw [withPassword_Id]; exact hid
  have hd1 : env.DescribeInstances (afterPassword vm w).trace (clientOf env vm)
      [(withPassword env vm w).Id] = (some ⟨some body⟩, none) := by
    rw [afterPassword_trace, withPassword_Id]; exact hd
  have hce := checkExist_one env (clientOf env vm) (withPassword env vm w) {}
    (afterPassword vm w) body inst requestId state ip memory cpu hid1 hd1 hset hrid hm hc hst hip
  rw [VMCreateAction_Do_loop_cons env vm rest outputs w hclient, bind_ok _ _ _ _ _ hce]
  simp only [withPassword_Id, withPassword_Guid, observedOutput]

/-- C6: the idempotent-create guard. For a create record with a non-empty id
whose client is built: (1) when the existence query finds exactly one instance
and the observation carries request id, memory, cpu, state and a private
address, the record costs one describe call and no `RunInstances`, and its
output record is built from the input's Guid and Id and from the observation;
(2) whenever it finds exactly one instance the only call made for the record is
that describe call; (3) when it finds more than one, `Do` fails with "qcloud vm
not found" after that one describe call; (4) when both existence queries find
none, `RunInstances` is issued; (5), (6) the second query is treated like the
first when the first finds none. -/
theorem create_existence_guard (env : Env) (vm : VmInput) (rest : List VmInput)
    (outputs : VmOutputs) (w : World) (hid : vm.Id ≠ "") (hclient : clientErrOf env vm = none) :
    (∀ body inst requestId state ip memory cpu,
      env.DescribeInstances w.trace (clientOf env vm) [vm.Id] = (some ⟨some body⟩, none) →
      body.InstanceSet = [some inst] → body.RequestId = some requestId →
      inst.Memory = some memory → inst.CPU = some cpu → inst.InstanceState = some state →
      inst.PrivateIpAddresses.get? 0 = some (some ip) →
      VMCreateAction.Do.loop env (vm :: rest) outputs w =
        VMCreateAction.Do.loop env rest
          { Outputs := outputs.Outputs ++ [observedOutput vm requestId memory cpu state ip] }
          ((afterPassword vm w).after [Event.DescribeInstances [vm.Id]])) ∧
    (∀ body,
      env.DescribeInstances w.trace (clientOf env vm) [vm.Id] = (some ⟨some body⟩, none) →
      body.InstanceSet.length = 1 →
      (∃ o, o.Guid = vm.Guid ∧ o.Id = vm.Id ∧
        VMCreateAction.Do.loop env (vm :: rest) outputs w =
          VMCreateAction.Do.loop env rest { Outputs := outputs.Outputs ++ [o] }
            ((afterPassword vm w).after [Event.DescribeInstances [vm.Id]])) ∨
      (∃ msg, VMCreateAction.Do.loop env (vm :: rest) outputs w =
          Res.panic msg ((afterPassword vm w).after [Event.DescribeInstances [vm.Id]]))) ∧
    (∀ body,
      env.DescribeInstances w.trace (clientOf env vm) [vm.Id] = (some ⟨some body⟩, none) →
      body.InstanceSet.length > 1 →
      VMCreateAction.Do.loop env (vm :: rest) outputs w =
        Res.ok (Any.nil, some VM_NOT_FOUND_ERROR)
          ((afterPassword vm w).after [Event.DescribeInstances [vm.Id]]) ∧
      VM_NOT_FOUND_ERROR.Error = "qcloud vm not found") ∧
    (∀ body1 body2,
      env.DescribeInstances w.trace (clientOf env vm) [vm.Id] = (some ⟨some body1⟩, none) →
      body1.InstanceSet = [] →
      env.DescribeInstances (w.trace ++ [Event.DescribeInstances [vm.Id]]) (clientOf env vm)
        [vm.Id] = (some ⟨some body2⟩, none) →
      body2.InstanceSet = [] →
      ∃ more, (VMCreateAction.Do.loop env (vm :: rest) outputs w).world.trace =
        w.trace ++ [Event.DescribeInstances [vm.Id], Event.DescribeInstances [vm.Id],
          Event.RunInstances (VMCreateAction.Do.request (paramsOf env vm) (withPassword env vm w))]
          ++ more) ∧
    (∀ body1 body2 inst requestId state ip memory cpu,
      env.DescribeInstances w.trace (clientOf env vm) [vm.Id] = (some ⟨some body1⟩, none) →
      body1.InstanceSet = [] →
      env.DescribeInstances (w.trace ++ [Event.DescribeInstances [vm.Id]]) (clientOf env vm)
        [vm.Id] = (some ⟨some body2⟩, none) →
      body2.InstanceSet = [some inst] → body2.RequestId = some requestId →
      inst.Memory = some memory → inst.CPU = some cpu → inst.InstanceState = some state →
      inst.PrivateIpAddresses.get? 0 = some (some ip) →
      VMCreateAction.Do.loop env (vm :: rest) outputs w =
        VMCreateAction.Do.loop env rest
          { Outputs := outputs.Outputs ++ [observedOutput vm requestId memory cpu state ip] }
          ((afterPassword vm w).after
            [Event.DescribeInstances [vm.Id], Event.DescribeInstances [vm.Id]])) ∧
    (∀ body1 body2,
      env.DescribeInstances w.trace (clientOf env vm) [vm.Id] = (some ⟨some body1⟩, none) →
      body1.InstanceSet = [] →
      env.DescribeInstances (w.trace ++ [Event.DescribeInstances [vm.Id]]) (clientOf env vm)
        [vm.Id] = (some ⟨some body2⟩, none) →
      body2.InstanceSet.length > 1 →
      VMCreateAction.Do.loop env (vm :: rest) outputs w =
        Res.ok (Any.nil, some VM_NOT_FOUND_ERROR)
          ((afterPassword vm w).after
            [Event.DescribeInstances [vm.Id], Event.DescribeInstances [vm.Id]])) := by
  have hid1 : (withPassword env vm w).Id ≠ "" := by rw [withPassword_Id]; exact hid
  have hstep := VMCreateAction_Do_loop_cons env vm rest outputs w hclient
  have hafter : ((afterPassword vm w).after [Event.DescribeInstances [vm.Id]]).after
      [Event.DescribeInstances [vm.Id]] =
      (afterPassword vm w).after
        [Event.DescribeInstances [vm.Id], Event.DescribeInstances [vm.Id]] := by
    simp [World.after]
  refine ⟨?_, ?_, ?_, ?_, ?_, ?_⟩
  · intro body inst requestId state ip memory cpu hd hset hrid hm hc hst hip
    exact VMCreateAction_Do_loop_existing env vm rest outputs w hid hclient body inst requestId
      state ip memory cpu hd hset hrid hm hc hst hip
  · intro body hd hset
    have hd1 : env.DescribeInstances (afterPassword vm w).trace (clientOf env vm)
        [(withPassword env vm w).Id] = (some ⟨some body⟩, none) := by
      rw [afterPassword_trace, withPassword_Id]; exact hd
    rcases checkExist_one_outcome env (clientOf env vm) (withPassword env vm w) {}
      (afterPassword vm w) body hid1 hd1 hset with ⟨o, hg, hi, hce⟩ | ⟨msg, hce⟩
    · left
      refine ⟨o, by rw [hg, withPassword_Guid], by rw [hi, withPassword_Id], ?_⟩
      rw [hstep, bind_ok _ _ _ _ _ hce]
      simp only [withPassword_Id]
    · right
      refine ⟨msg, ?_⟩
      rw [hstep]
      show M.bind _ _ _ = _
      simp only [M.bind, hce, withPassword_Id]
  · intro body hd hset
    have hd1 : env.DescribeInstances (afterPassword vm w).trace (clientOf env vm)
        [(withPassword env vm w).Id] = (some ⟨some body⟩, none) := by
      rw [afterPassword_trace, withPassword_Id]; exact hd
    have hce := checkExist_many env (clientOf env vm) (withPassword env vm w) {}
      (afterPassword vm w) body hid1 hd1 hset
    refine ⟨?_, rfl⟩
    rw [hstep, bind_ok _ _ _ _ _ hce]
    simp only [withPassword_Id, pure, M.pure]
  · intro body1 body2 hd1 hset1 hd2 hset2
    have hd1' : env.DescribeInstances (afterPassword vm w).trace (clientOf env vm)
        [(withPassword env vm w).Id] = (some ⟨some body1⟩, none) := by
      rw [afterPassword_trace, withPassword_Id]; exact hd1
    have hce1 := checkExist_zero env (clientOf env vm) (withPassword env vm w) {}
      (afterPassword vm w) body1 hid1 hd1' hset1
    have hd2' : env.DescribeInstances
        ((afterPassword vm w).after [Event.DescribeInstances [(withPassword env vm w).Id]]).trace
        (clientOf env vm) [(withPassword env vm w).Id] = (some ⟨some body2⟩, none) := by
      simp only [World.after, afterPassword_trace, withPassword_Id]; exact hd2
    have hce2 := checkExist_zero env (clientOf env vm) (withPassword env vm w) {}
      ((afterPassword vm w).after [Event.DescribeInstances [(withPassword env vm w).Id]])
      body2 hid1 hd2' hset2
    rw [hstep, bind_ok _ _ _ _ _ hce1]
    simp only
    rw [bind_ok _ _ _ _ _ hce2]
    have hafter3 : (((afterPassword vm w).after
          [Event.DescribeInstances [(withPassword env vm w).Id]]).after
          [Event.DescribeInstances [(withPassword env vm w).Id]]).trace =
        w.trace ++ [Event.DescribeInstances [vm.Id], Event.DescribeInstances [vm.Id]] := by
      simp [World.after, afterPassword_trace, withPassword_Id]
    obtain ⟨more, hm⟩ := bind_trace_after
      (VMCreateAction.Do.create env (clientOf env vm) (paramsOf env vm) (withPassword env vm w) {})
      (fun r => match r.2 with
        | some err => pure (Any.nil, some err)
        | none => deref r.1 >>= fun output =>
          VMCreateAction.Do.loop env rest { outputs with Outputs := outputs.Outputs ++ [output] })
      _ _ (create_trace env (clientOf env vm) (paramsOf env vm) (withPassword env vm w) {} _)
      (fun r => by
        rcases r with ⟨o, err⟩
        cases err with
        | some e => exact grows_pure _
        | none => exact grows_bind _ _ (grows_deref _) fun _ => grows_VMCreateAction_Do_loop _ _ _)
    refine ⟨more, ?_⟩
    rw [hm, hafter3]
    simp
  · intro body1 body2 inst requestId state ip memory cpu hd1 hset1 hd2 hset2 hrid hm hc hst hip
    have hd1' : env.DescribeInstances (afterPassword vm w).trace (clientOf env vm)
        [(withPassword env vm w).Id] = (some ⟨some body1⟩, none) := by
      rw [afterPassword_trace, withPassword_Id]; exact hd1
    have hce1 := checkExist_zero env (clientOf env vm) (withPassword env vm w) {}
      (afterPassword vm w) body1 hid1 hd1' hset1
    have hd2' : env.DescribeInstances
        ((afterPassword vm w).after [Event.DescribeInstances [(withPassword env vm w).Id]]).trace
        (clientOf env vm) [(withPassword env vm w).Id] = (some ⟨some body2⟩, none) := by
      simp only [World.after, afterPassword_trace, withPassword_Id]; exact hd2
    have hce2 := checkExist_one env (clientOf env vm) (withPassword env vm w) {}
      ((afterPassword vm w).after [Event.DescribeInstances [(withPassword env vm w).Id]])
      body2 inst requestId state ip memory cpu hid1 hd2' hset2 hrid hm hc hst hip
    rw [hstep, bind_ok _ _ _ _ _ hce1]
    simp only
    rw [bind_ok _ _ _ _ _ hce2]
    simp only [withPassword_Id, withPassword_Guid, observedOutput, hafter]
  · intro body1 body2 hd1 hset1 hd2 hset2
    have hd1' : env.DescribeInstances (afterPassword vm w).trace (clientOf env vm)
        [(withPassword env vm w).Id] = (some ⟨some body1⟩, none) := by
      rw [afterPassword_trace, withPassword_Id]; exact hd1
    have hce1 := checkExist_zero env (clientOf env vm) (withPassword env vm w) {}
      (afterPassword vm w) body1 hid1 hd1' hset1
    have hd2' : env.DescribeInstances
        ((afterPassword vm w).after [Event.DescribeInstances [(withPassword env vm w).Id]]).trace
        (clientOf env vm) [(withPassword env vm w).Id] = (some ⟨some body2⟩, none) := by
      simp only [World.after, afterPassword_trace, withPassword_Id]; exact hd2
    have hce2 := checkExist_many env (clientOf env vm) (withPassword env vm w) {}
      ((afterPassword vm w).after [Event.DescribeInstances [(withPassword env vm w).Id]])
      body2 hid1 hd2' hset2
    rw [hstep, bind_ok _ _ _ _ _ hce1]
    simp only
    rw [bind_ok _ _ _ _ _ hce2]
    simp only [withPassword_Id, pure, M.pure, hafter]

/-- C6 at a concrete input: a record whose id the stub finds once. -/
theorem create_existence_guard_witness :
    VMCreateAction.Do.loop alwaysRunning [{ Guid := "g1", Id := "ins-1", Password := "p" }] {} {} =
      VMCreateAction.Do.loop alwaysRunning []
        { Outputs := [observedOutput { Guid := "g1", Id := "ins-1", Password := "p" }
            "req-describe" 4096 2 "RUNNING" "10.0.0.5"] }
        { trace := [Event.DescribeInstances ["ins-1"]] } :=
  (create_existence_guard alwaysRunning { Guid := "g1", Id := "ins-1", Password := "p" } [] {} {}
    (by decide) (by rfl)).1
    { InstanceSet := [some runningInstance], RequestId := some "req-describe" } runningInstance
    "req-describe" "RUNNING" "10.0.0.5" 4096 2 (by rfl) (by rfl) (by rfl) (by rfl) (by rfl)
    (by rfl) (by rfl)

/-- C7 fails on the code: against a cloud that keeps what it makes, creating
twice with the same caller-supplied id "vm-A" (unknown to the cloud) issues
`RunInstances` twice and reports two different records ("ins-0", then "ins-1");
and creating with no id, then again with the id "ins-0" that was reported,
reports a record that differs from the first in its password field. -/
theorem create_twice_not_idempotent :
    ((VMCreateAction.Do keepingCloud
        (Any.VmInputs { Inputs := [{ Guid := "g1", Id := "vm-A", Password := "p" }] }) {}).value? =
      some (Any.VmOutputsPtr { Outputs := [scenarioOutput "ins-0" "aes:p"] }, none) ∧
     (VMCreateAction.Do keepingCloud
        (Any.VmInputs { Inputs := [{ Guid := "g1", Id := "vm-A", Password := "p" }] })
        (VMCreateAction.Do keepingCloud
          (Any.VmInputs { Inputs := [{ Guid := "g1", Id := "vm-A", Password := "p" }] })
          {}).world).value? =
      some (Any.VmOutputsPtr { Outputs := [scenarioOutput "ins-1" "aes:p"] }, none) ∧
     (VMCreateAction.Do keepingCloud
        (Any.VmInputs { Inputs := [{ Guid := "g1", Id := "vm-A", Password := "p" }] })
        (VMCreateAction.Do keepingCloud
          (Any.VmInputs { Inputs := [{ Guid := "g1", Id := "vm-A", Password := "p" }] })
          {}).world).world.trace.countP isRunInstances = 2) ∧
    ((VMCreateAction.Do keepingCloud
        (Any.VmInputs { Inputs := [{ Guid := "g1", Password := "p" }] }) {}).value? =
      some (Any.VmOutputsPtr { Outputs := [scenarioOutput "ins-0" "aes:p"] }, none) ∧
     (VMCreateAction.Do keepingCloud
        (Any.VmInputs { Inputs := [{ Guid := "g1", Id := "ins-0", Password := "p" }] })
        (VMCreateAction.Do keepingCloud
          (Any.VmInputs { Inputs := [{ Guid := "g1", Password := "p" }] }) {}).world).value? =
      some (Any.VmOutputsPtr { Outputs := [scenarioOutput "ins-0" ""] }, none)) := by
  refine ⟨⟨by rfl, by rfl, by rfl⟩, ⟨by rfl, by rfl⟩⟩

/-- C7 as amended: when the client is built, the record's non-empty id is
matched by exactly one instance whose observation carries request id, memory,
cpu, state and a private address, and the existence query answers the second
invocation as it answered the first, both invocations of create return the
same output record, built from that observation, and neither issues
`RunInstances`: each adds one describe call to the trace and nothing else. -/
theorem create_twice_existing (env : Env) (vm : VmInput) (w : World)
    (body : DescribeInstancesBody) (inst : Instance) (requestId state ip : String)
    (memory cpu : Int) (hid : vm.Id ≠ "") (hclient : clientErrOf env vm = none)
    (hd1 : env.DescribeInstances w.trace (clientOf env vm) [vm.Id] = (some ⟨some body⟩, none))
    (hd2 : env.DescribeInstances (w.trace ++ [Event.DescribeInstances [vm.Id]]) (clientOf env vm)
      [vm.Id] = (some ⟨some body⟩, none))
    (hset : body.InstanceSet = [some inst]) (hrid : body.RequestId = some requestId)
    (hm : inst.Memory = some memory) (hc : inst.CPU = some cpu)
    (hst : inst.InstanceState = some state)
    (hip : inst.PrivateIpAddresses.get? 0 = some (some ip)) :
    VMCreateAction.Do env (Any.VmInputs { Inputs := [vm] }) w =
      Res.ok (Any.VmOutputsPtr
          { Outputs := [observedOutput vm requestId memory cpu state ip] }, none)
        ((afterPassword vm w).after [Event.DescribeInstances [vm.Id]]) ∧
    VMCreateAction.Do env (Any.VmInputs { Inputs := [vm] })
        ((afterPassword vm w).after [Event.DescribeInstances [vm.Id]]) =
      Res.ok (Any.VmOutputsPtr
          { Outputs := [observedOutput vm requestId memory cpu state ip] }, none)
        ((afterPassword vm ((afterPassword vm w).after [Event.DescribeInstances [vm.Id]])).after
          [Event.DescribeInstances [vm.Id]]) ∧
    ((afterPassword vm ((afterPassword vm w).after [Event.DescribeInstances [vm.Id]])).after
        [Event.DescribeInstances [vm.Id]]).trace =
      w.trace ++ [Event.DescribeInstances [vm.Id], Event.DescribeInstances [vm.Id]] ∧
    ((afterPassword vm ((afterPassword vm w).after [Event.DescribeInstances [vm.Id]])).after
        [Event.DescribeInstances [vm.Id]]).trace.countP isRunInstances =
      w.trace.countP isRunInstances := by
  have htr : ((afterPassword vm w).after [Event.DescribeInstances [vm.Id]]).trace =
      w.trace ++ [Event.DescribeInstances [vm.Id]] := by
    simp [World.after, afterPassword_trace]
  have htr2 : ((afterPassword vm ((afterPassword vm w).after
      [Event.DescribeInstances [vm.Id]])).after [Event.DescribeInstances [vm.Id]]).trace =
      w.trace ++ [Event.DescribeInstances [vm.Id], Event.DescribeInstances [vm.Id]] := by
    simp [World.after, afterPassword_trace]
  refine ⟨?_, ?_, htr2, ?_⟩
  · unfold VMCreateAction.Do
    simp only [assertVmInputs]
    rw [VMCreateAction_Do_loop_existing env vm [] {} w hid hclient body inst requestId state ip
      memory cpu hd1 hset hrid hm hc hst hip]
    simp [VMCreateAction.Do.loop, pure, M.pure]
  · unfold VMCreateAction.Do
    simp only [assertVmInputs]
    rw [VMCreateAction_Do_loop_existing env vm [] {} _ hid hclient body inst requestId state ip
      memory cpu (by rw [htr]; exact hd2) hset hrid hm hc hst hip]
    simp [VMCreateAction.Do.loop, pure, M.pure]
  · rw [htr2]
    simp [List.countP_append, List.countP_cons, isRunInstances]

/-- C7 as amended, at a concrete input: the stub finds "ins-1" once, twice. -/
theorem create_twice_existing_witness :
    VMCreateAction.Do alwaysRunning
        (Any.VmInputs { Inputs := [{ Guid := "g1", Id := "ins-1", Password := "p" }] })
        { trace := [Event.DescribeInstances ["ins-1"]] } =
      Res.ok (Any.VmOutputsPtr
          { Outputs := [scenarioOutput "ins-1" ""] },
          none)
        { trace := [Event.DescribeInstances ["ins-1"], Event.DescribeInstances ["ins-1"]] } :=
  (create_twice_existing alwaysRunning { Guid := "g1", Id := "ins-1", Password := "p" } {}
    { InstanceSet := [some runningInstance], RequestId := some "req-describe" } runningInstance
    "req-describe" "RUNNING" "10.0.0.5" 4096 2 (by decide) (by rfl) (by rfl) (by rfl) (by rfl)
    (by rfl) (by rfl) (by rfl) (by rfl) (by rfl)).2.1

/-! ### The wait loops -/

theorem wrapInt_le_maxInt (x : Int) : wrapInt x ≤ maxInt := by
  unfold wrapInt maxInt; omega

theorem wrapInt_of_small (x : Int) (h0 : 0 ≤ x) (h1 : x ≤ maxInt) : wrapInt x = x := by
  unfold maxInt at h1; unfold wrapInt; omega

theorem countAfter_small (k : Nat) : ∀ count : Int, 0 ≤ count → count + k ≤ maxInt →
    countAfter count k = count + k := by
  induction k with
  | zero => intro count _ _; simp [countAfter]
  | succ n ih =>
    intro count h0 h1
    have hw : wrapInt (count + 1) = count + 1 :=
      wrapInt_of_small _ (by omega) (by push_cast at h1; omega)
    rw [countAfter, hw, ih (count + 1) (by omega) (by push_cast at h1 ⊢; omega)]
    push_cast; ring

theorem countAfter_succ (k : Nat) : ∀ count : Int,
    countAfter count (k + 1) = wrapInt (countAfter count k + 1) := by
  induction k with
  | zero => intro count; simp [countAfter]
  | succ n ih => intro count; rw [countAfter, ih, countAfter]

theorem pollEvents_succ (id : String) (n : Nat) :
    pollEvents id (n + 1) = pollEvents id n ++ [Event.sleep 5, Event.DescribeInstances [id]] := by
  induction n with
  | zero => rfl
  | succ k ih =>
    show Event.sleep 5 :: Event.DescribeInstances [id] :: pollEvents id (k + 1) =
      (Event.sleep 5 :: Event.DescribeInstances [id] :: pollEvents id k) ++
        [Event.sleep 5, Event.DescribeInstances [id]]
    rw [ih]
    simp

theorem elapsed_append (xs ys : List Event) : elapsed (xs ++ ys) = elapsed xs + elapsed ys := by
  induction xs with
  | nil => simp [elapsed]
  | cons x rest ih =>
    cases x <;> simp [elapsed, ih]
    omega

theorem pollEvents_counts (id : String) (n : Nat) :
    elapsed (pollEvents id n) = 5 * n ∧ (pollEvents id n).countP isSleep = n ∧
      (pollEvents id n).countP isDescribe = n ∧
      (pollEvents id n).countP isRemoteCall = n := by
  induction n with
  | zero => simp [pollEvents, elapsed]
  | succ k ih =>
    obtain ⟨h1, h2, h3, h4⟩ := ih
    simp [pollEvents, elapsed, List.countP_cons, isSleep, isDescribe, isRemoteCall, h1, h2, h3, h4]
    omega

theorem pollResponse_shift (env : Env) (client : Client) (id : String) (w : World) (k : Nat) :
    pollResponse env client id (w.after [Event.sleep 5, Event.DescribeInstances [id]]) k =
      pollResponse env client id w (k + 1) := by
  simp [pollResponse, World.after, pollEvents]

theorem after_after (w : World) (xs ys : List Event) : (w.after xs).after ys = w.after (xs ++ ys) := by
  simp [World.after]

theorem after_nil (w : World) : w.after [] = w := by
  simp [World.after]

theorem pollResponse_zero (env : Env) (client : Client) (id : String) (w : World) :
    pollResponse env client id w 0 = env.DescribeInstances (w.trace ++ [Event.sleep 5]) client [id] := by
  simp [pollResponse, pollEvents]

theorem waitState_step_pending (env : Env) (client : Client) (id desire : String)
    (timeout : Int) (fuel : Nat) (count : Int) (w : World)
    (h : Pending desire (pollResponse env client id w 0)) :
    waitVmInDesireState.loop env client id desire timeout (fuel + 1) count w =
      if wrapInt (wrapInt (count + 1) * 5) > timeout then
        Res.ok (some VM_WAIT_STATE_TIMEOUT_ERROR)
          (w.after [Event.sleep 5, Event.DescribeInstances [id]])
      else
        waitVmInDesireState.loop env client id desire timeout fuel (wrapInt (count + 1))
          (w.after [Event.sleep 5, Event.DescribeInstances [id]]) := by
  obtain ⟨body, inst, state, hr, hset, hst, hne⟩ := h
  rw [pollResponse_zero] at hr
  rw [waitVmInDesireState.loop]
  simp only [bind, M.bind, Sleep, emit, getInstanceByInstanceId, describeInstancesFromCvm,
    Client.DescribeInstances, hr, pure, M.pure, deref, index, hset, List.length_singleton,
    ne_eq, not_true_eq_false, if_false, List.get?_cons_zero, hst, hne, World.after,
    List.append_assoc, List.singleton_append]
  split <;> rfl

theorem waitState_step_reached (env : Env) (client : Client) (id desire : String)
    (timeout : Int) (fuel : Nat) (count : Int) (w : World)
    (h : Reached desire (pollResponse env client id w 0)) :
    waitVmInDesireState.loop env client id desire timeout (fuel + 1) count w =
      Res.ok none (w.after [Event.sleep 5, Event.DescribeInstances [id]]) := by
  obtain ⟨body, inst, hr, hset, hst⟩ := h
  rw [pollResponse_zero] at hr
  rw [waitVmInDesireState.loop]
  simp only [bind, M.bind, Sleep, emit, getInstanceByInstanceId, describeInstancesFromCvm,
    Client.DescribeInstances, hr, pure, M.pure, deref, index, hset, List.length_singleton,
    ne_eq, not_true_eq_false, if_false, if_true, List.get?_cons_zero, hst, World.after,
    List.append_assoc, List.singleton_append]

theorem waitState_step_failed (env : Env) (client : Client) (id desire : String)
    (timeout : Int) (fuel : Nat) (count : Int) (w : World)
    (r : Option DescribeInstancesResponse) (e : GoError)
    (h : pollResponse env client id w 0 = (r, some e)) :
    waitVmInDesireState.loop env client id desire timeout (fuel + 1) count w =
      Res.ok (some e) (w.after [Event.sleep 5, Event.DescribeInstances [id]]) := by
  rw [pollResponse_zero] at h
  rw [waitVmInDesireState.loop]
  simp only [bind, M.bind, Sleep, emit, getInstanceByInstanceId, describeInstancesFromCvm,
    Client.DescribeInstances, h, pure, M.pure, World.after,
    List.append_assoc, List.singleton_append]

theorem waitGone_step_pending (env : Env) (client : Client) (id : String)
    (timeout : Int) (fuel : Nat) (count : Int) (w : World)
    (h : StillListed (pollResponse env client id w 0)) :
    waitVmTerminateDone.loop env client id timeout (fuel + 1) count w =
      if wrapInt (wrapInt (count + 1) * 5) > timeout then
        Res.ok (some VM_WAIT_STATE_TIMEOUT_ERROR)
          (w.after [Event.sleep 5, Event.DescribeInstances [id]])
      else
        waitVmTerminateDone.loop env client id timeout fuel (wrapInt (count + 1))
          (w.after [Event.sleep 5, Event.DescribeInstances [id]]) := by
  obtain ⟨body, hr, hset⟩ := h
  rw [pollResponse_zero] at hr
  have hlen : ¬ body.InstanceSet.length = 0 := by
    simpa [List.length_eq_zero] using hset
  rw [waitVmTerminateDone.loop]
  simp only [bind, M.bind, Sleep, emit, describeInstancesFromCvm,
    Client.DescribeInstances, hr, pure, M.pure, deref, hlen, if_false, World.after,
    List.append_assoc, List.singleton_append]
  split <;> rfl

theorem waitGone_step_reached (env : Env) (client : Client) (id : String)
    (timeout : Int) (fuel : Nat) (count : Int) (w : World)
    (h : Gone (pollResponse env client id w 0)) :
    waitVmTerminateDone.loop env client id timeout (fuel + 1) count w =
      Res.ok none (w.after [Event.sleep 5, Event.DescribeInstances [id]]) := by
  obtain ⟨body, hr, hset⟩ := h
  rw [pollResponse_zero] at hr
  rw [waitVmTerminateDone.loop]
  simp only [bind, M.bind, Sleep, emit, describeInstancesFromCvm,
    Client.DescribeInstances, hr, pure, M.pure, deref, hset, List.length_nil, if_true,
    World.after, List.append_assoc, List.singleton_append]

theorem waitGone_step_failed (env : Env) (client : Client) (id : String)
    (timeout : Int) (fuel : Nat) (count : Int) (w : World)
    (r : Option DescribeInstancesResponse) (e : GoError)
    (h : pollResponse env client id w 0 = (r, some e)) :
    waitVmTerminateDone.loop env client id timeout (fuel + 1) count w =
      Res.ok (some e) (w.after [Event.sleep 5, Event.DescribeInstances [id]]) := by
  rw [pollResponse_zero] at h
  rw [waitVmTerminateDone.loop]
  simp only [bind, M.bind, Sleep, emit, describeInstancesFromCvm,
    Client.DescribeInstances, h, pure, M.pure, World.after,
    List.append_assoc, List.singleton_append]

/-- While the polls are pending and the budget is not used up, the loop of
`waitVmInDesireState` goes on: after `n` such polls it is where it was, `n`
polls later. -/
theorem waitState_pending_run (env : Env) (client : Client) (id desire : String) (timeout : Int) :
    ∀ (n fuel : Nat) (count : Int) (w : World),
      (∀ k < n, Pending desire (pollResponse env client id w k)) →
      (∀ k < n, ¬ wrapInt (countAfter count (k + 1) * 5) > timeout) →
      waitVmInDesireState.loop env client id desire timeout (n + fuel) count w =
        waitVmInDesireState.loop env client id desire timeout fuel (countAfter count n)
          (w.after (pollEvents id n)) := by
  intro n
  induction n with
  | zero => intro fuel count w _ _; simp [countAfter, pollEvents, after_nil]
  | succ m ih =>
    intro fuel count w hp ht
    have h0 := ht 0 (Nat.succ_pos m)
    simp only [countAfter] at h0
    rw [show m + 1 + fuel = (m + fuel) + 1 by omega,
      waitState_step_pending env client id desire timeout (m + fuel) count w (hp 0 (Nat.succ_pos m)),
      if_neg h0,
      ih fuel (wrapInt (count + 1)) _
        (fun k hk => by rw [pollResponse_shift]; exact hp (k + 1) (by omega))
        (fun k hk => by have := ht (k + 1) (by omega); simpa [countAfter] using this),
      after_after]
    rfl

/-- The same for the loop of `waitVmTerminateDone`. -/
theorem waitGone_pending_run (env : Env) (client : Client) (id : String) (timeout : Int) :
    ∀ (n fuel : Nat) (count : Int) (w : World),
      (∀ k < n, StillListed (pollResponse env client id w k)) →
      (∀ k < n, ¬ wrapInt (countAfter count (k + 1) * 5) > timeout) →
      waitVmTerminateDone.loop env client id timeout (n + fuel) count w =
        waitVmTerminateDone.loop env client id timeout fuel (countAfter count n)
          (w.after (pollEvents id n)) := by
  intro n
  induction n with
  | zero => intro fuel count w _ _; simp [countAfter, pollEvents, after_nil]
  | succ m ih =>
    intro fuel count w hp ht
    have h0 := ht 0 (Nat.succ_pos m)
    simp only [countAfter] at h0
    rw [show m + 1 + fuel = (m + fuel) + 1 by omega,
      waitGone_step_pending env client id timeout (m + fuel) count w (hp 0 (Nat.succ_pos m)),
      if_neg h0,
      ih fuel (wrapInt (count + 1)) _
        (fun k hk => by rw [pollResponse_shift]; exact hp (k + 1) (by omega))
        (fun k hk => by have := ht (k + 1) (by omega); simpa [countAfter] using this),
      after_after]
    rfl

/-- Within the budget the counter has not wrapped and the test `count * 5 >
timeout` fails. -/
theorem budget_not_used (timeout : Int) (n : Nat) (h : 5 * (n : Int) ≤ timeout) :
    ∀ k < n, ¬ wrapInt (countAfter 0 (k + 1) * 5) > timeout := by
  intro k hk
  have hle := wrapInt_le_maxInt (countAfter 0 (k + 1) * 5)
  by_cases hbig : maxInt ≤ timeout
  · omega
  · have hk1 : ((k + 1 : Nat) : Int) ≤ n := by exact_mod_cast hk
    have hc : countAfter 0 (k + 1) = ((k + 1 : Nat) : Int) := by
      rw [countAfter_small (k + 1) 0 (le_refl 0) (by unfold maxInt at hbig ⊢; omega)]
      simp
    rw [hc, wrapInt_of_small _ (by omega) (by unfold maxInt at hbig ⊢; omega)]
    omega

/-- C9: if poll number `n` is the first whose observation passes the
desired-state test (the polls before it return without error and do not pass
it) and `5 * (n - 1) ≤ timeout`, then `waitVmInDesireState` and
`waitVmTerminateDone` return success in the world reached by exactly `n` polls:
`n` sleeps of 5 (`5 * n` elapsed, so 5 for `n = 1`) and `n` describe calls,
nothing more. -/
theorem wait_succeeds_at_first_satisfying_poll (env : Env) (client : Client)
    (id desire : String) (timeout : Int) (n fuel : Nat) (w : World)
    (hn : 1 ≤ n) (hto : 5 * ((n : Int) - 1) ≤ timeout) (hfuel : n ≤ fuel) :
    ((∀ k < n - 1, Pending desire (pollResponse env client id w k)) →
      Reached desire (pollResponse env client id w (n - 1)) →
      waitVmInDesireState env client id desire timeout fuel w =
        Res.ok none (w.after (pollEvents id n))) ∧
    ((∀ k < n - 1, StillListed (pollResponse env client id w k)) →
      Gone (pollResponse env client id w (n - 1)) →
      waitVmTerminateDone env client id timeout fuel w =
        Res.ok none (w.after (pollEvents id n))) ∧
    elapsed (pollEvents id n) = 5 * n ∧ (pollEvents id n).countP isSleep = n ∧
    (pollEvents id n).countP isDescribe = n ∧ (pollEvents id n).countP isRemoteCall = n := by
  obtain ⟨m, rfl⟩ : ∃ m, n = m + 1 := ⟨n - 1, by omega⟩
  obtain ⟨extra, rfl⟩ : ∃ extra, fuel = m + (extra + 1) := ⟨fuel - (m + 1), by omega⟩
  have hbudget := budget_not_used timeout m (by push_cast at hto; omega)
  simp only [Nat.add_sub_cancel]
  refine ⟨fun hp hr => ?_, fun hp hr => ?_, pollEvents_counts id (m + 1)⟩
  · unfold waitVmInDesireState
    rw [waitState_pending_run env client id desire timeout m (extra + 1) 0 w hp hbudget,
      waitState_step_reached env client id desire timeout extra _ _
        (by simpa [pollResponse, World.after, pollEvents] using hr),
      after_after, ← pollEvents_succ]
  · unfold waitVmTerminateDone
    rw [waitGone_pending_run env client id timeout m (extra + 1) 0 w hp hbudget,
      waitGone_step_reached env client id timeout extra _ _
        (by simpa [pollResponse, World.after, pollEvents] using hr),
      after_after, ← pollEvents_succ]

/-- C9 at the specification's scenario: the describe call lists one instance
for three polls and none at the fourth; the terminate wait of
`VMTerminateAction.Do` succeeds after the fourth poll. -/
theorem wait_succeeds_at_first_satisfying_poll_witness :
    waitVmTerminateDone goneAfterThree stubClient "ins-1" 600 (waitFuel 600) {} =
      Res.ok none
        { trace := [Event.sleep 5, Event.DescribeInstances ["ins-1"],
                    Event.sleep 5, Event.DescribeInstances ["ins-1"],
                    Event.sleep 5, Event.DescribeInstances ["ins-1"],
                    Event.sleep 5, Event.DescribeInstances ["ins-1"]] } :=
  (wait_succeeds_at_first_satisfying_poll goneAfterThree stubClient "ins-1" "" 600 4
    (waitFuel 600) {} (by decide) (by decide) (by decide)).2.1
    (fun k hk => by
      have hk3 : k < 3 := hk
      interval_cases k <;>
        exact ⟨bodyOf [runningInstance] "req-describe", by rfl, by simp [bodyOf]⟩)
    ⟨bodyOf [] "req-describe", by rfl, rfl⟩

/-- C10: if the describe call of poll number `k` fails with error `e`, the
polls before it having returned without error, not passed the desired-state
test and not used up the budget, then `waitVmInDesireState` and
`waitVmTerminateDone` return exactly `e` in the world reached by `k` polls (`k`
describe calls, none after the failing one); an error of the SDK is not the
wait-timeout error. -/
theorem wait_returns_fetch_error (env : Env) (client : Client)
    (id desire : String) (timeout : Int) (k fuel : Nat) (w : World)
    (r : Option DescribeInstancesResponse) (e : GoError)
    (hk : 1 ≤ k) (hto : 5 * ((k : Int) - 1) ≤ timeout) (hfuel : k ≤ fuel)
    (hfail : pollResponse env client id w (k - 1) = (r, some e)) :
    ((∀ j < k - 1, Pending desire (pollResponse env client id w j)) →
      waitVmInDesireState env client id desire timeout fuel w =
        Res.ok (some e) (w.after (pollEvents id k))) ∧
    ((∀ j < k - 1, StillListed (pollResponse env client id w j)) →
      waitVmTerminateDone env client id timeout fuel w =
        Res.ok (some e) (w.after (pollEvents id k))) ∧
    (pollEvents id k).countP isDescribe = k ∧
    (∀ msg, e = GoError.foreign msg → e ≠ VM_WAIT_STATE_TIMEOUT_ERROR) := by
  obtain ⟨m, rfl⟩ : ∃ m, k = m + 1 := ⟨k - 1, by omega⟩
  obtain ⟨extra, rfl⟩ : ∃ extra, fuel = m + (extra + 1) := ⟨fuel - (m + 1), by omega⟩
  have hbudget := budget_not_used timeout m (by push_cast at hto; omega)
  simp only [Nat.add_sub_cancel] at hfail ⊢
  refine ⟨fun hp => ?_, fun hp => ?_, (pollEvents_counts id (m + 1)).2.2.1, ?_⟩
  · unfold waitVmInDesireState
    rw [waitState_pending_run env client id desire timeout m (extra + 1) 0 w hp hbudget,
      waitState_step_failed env client id desire timeout extra _ _ r e
        (by simpa [pollResponse, World.after, pollEvents] using hfail),
      after_after, ← pollEvents_succ]
  · unfold waitVmTerminateDone
    rw [waitGone_pending_run env client id timeout m (extra + 1) 0 w hp hbudget,
      waitGone_step_failed env client id timeout extra _ _ r e
        (by simpa [pollResponse, World.after, pollEvents] using hfail),
      after_after, ← pollEvents_succ]
  · intro msg he
    rw [he]
    exact fun h => GoError.noConfusion h

/-- C10 at a concrete input: the second describe call fails. -/
theorem wait_returns_fetch_error_witness :
    waitVmInDesireState failingSecond stubClient "ins-1" "RUNNING" 120 (waitFuel 120) {} =
      Res.ok (some (GoError.foreign "RequestLimitExceeded"))
        { trace := [Event.sleep 5, Event.DescribeInstances ["ins-1"],
                    Event.sleep 5, Event.DescribeInstances ["ins-1"]] } :=
  (wait_returns_fetch_error failingSecond stubClient "ins-1" "RUNNING" 120 2 (waitFuel 120) {}
    none (GoError.foreign "RequestLimitExceeded") (by decide) (by decide) (by decide)
    (by rfl)).1
    (fun j hj => by
      have hj1 : j < 1 := hj
      interval_cases j
      exact ⟨bodyOf [{ runningInstance with InstanceState := some "PENDING" }] "req-describe",
        _, "PENDING", by rfl, rfl, rfl, by decide⟩)

theorem alwaysStopped_pending (w : World) (k : Nat) :
    Pending "RUNNING" (pollResponse alwaysStopped stubClient "ins-1" w k) :=
  ⟨bodyOf [{ runningInstance with InstanceState := some "STOPPED" }] "req-describe", _, "STOPPED",
    rfl, rfl, rfl, by decide⟩

/-- With the largest `int` as timeout the test `count * 5 > timeout` never
holds, so pending polls keep the loop going for as long as the model runs it. -/
theorem waitState_maxInt_outOfFuel (fuel : Nat) :
    waitVmInDesireState alwaysStopped stubClient "ins-1" "RUNNING" maxInt fuel {} =
      Res.outOfFuel ((({} : World)).after (pollEvents "ins-1" fuel)) := by
  unfold waitVmInDesireState
  have h := waitState_pending_run alwaysStopped stubClient "ins-1" "RUNNING" maxInt fuel 0 0 {}
    (fun k _ => alwaysStopped_pending _ k)
    (fun k _ => not_lt.mpr (wrapInt_le_maxInt _))
  rw [Nat.add_zero] at h
  rw [h]
  rfl

/-- With a timeout of `2 ^ 63 - 3` the product `count * 5` wraps at the poll that
should end the wait, so the loop is still going after `waitFuel timeout` polls. -/
theorem waitState_wraps_on (n fuel : Nat) (hn : n ≤ waitFuel (2 ^ 63 - 3)) :
    waitVmInDesireState alwaysStopped stubClient "ins-1" "RUNNING" (2 ^ 63 - 3) (n + fuel) {} =
      waitVmInDesireState.loop alwaysStopped stubClient "ins-1" "RUNNING" (2 ^ 63 - 3) fuel
        (countAfter 0 n) ((({} : World)).after (pollEvents "ins-1" n)) := by
  unfold waitVmInDesireState
  refine waitState_pending_run alwaysStopped stubClient "ins-1" "RUNNING" (2 ^ 63 - 3)
    n fuel 0 {} (fun k _ => alwaysStopped_pending _ k) ?_
  intro k hk
  have hk' : (k : Int) < 1844674407370955162 := by
    have : waitFuel (2 ^ 63 - 3) = 1844674407370955162 := by rfl
    rw [this] at hn
    have : k < 1844674407370955162 := by omega
    exact_mod_cast this
  rw [countAfter_small (k + 1) 0 (le_refl 0) (by unfold maxInt; push_cast; omega)]
  unfold wrapInt
  push_cast
  by_cases hlast : (k : Int) = 1844674407370955161
  · rw [hlast]; norm_num
  · have hmod : ((0 + ((k : Int) + 1)) * 5 + 9223372036854775808) % 18446744073709551616 =
        (0 + ((k : Int) + 1)) * 5 + 9223372036854775808 :=
      Int.emod_eq_of_lt (by omega) (by omega)
    rw [hmod]
    omega

theorem waitState_loop_zero (env : Env) (client : Client) (id desire : String) (timeout : Int)
    (count : Int) (w : World) :
    waitVmInDesireState.loop env client id desire timeout 0 count w = Res.outOfFuel w := by
  rw [waitVmInDesireState.loop]

/-- A turn of the loop of `waitVmInDesireState` starts with a sleep. -/
theorem waitState_loop_trace (env : Env) (client : Client) (id desire : String) (timeout : Int)
    (fuel : Nat) (count : Int) (w : World) :
    ∃ more, (waitVmInDesireState.loop env client id desire timeout (fuel + 1) count w).world.trace =
      w.trace ++ [Event.sleep 5] ++ more := by
  rw [waitVmInDesireState.loop]
  refine bind_trace_after _ _ w _ ⟨[], by simp [Sleep, emit, Res.world]⟩ fun _ =>
    grows_bind _ _ (grows_getInstanceByInstanceId _ _ _) ?_
  rintro ⟨inst, err⟩
  cases err with
  | some e => exact grows_pure _
  | none =>
    refine grows_bind _ _ (grows_deref _) fun i => grows_bind _ _ (grows_deref _) fun st => ?_
    split
    · exact grows_pure _
    · dsimp only
      split
      · exact grows_pure _
      · exact grows_waitVmInDesireState_loop _ _ _ _ _ _ _

/-- C8 fails on the code for the largest timeouts (`int` has 64 bits): with
timeout `2 ^ 63 - 1` and polls that never pass the test, `waitVmInDesireState`
does not return however long it is run; with timeout `2 ^ 63 - 3` it cannot
return before more than `timeout + 5` has elapsed. -/
theorem wait_overruns_largest_timeouts :
    (¬ ∃ fuel, (waitVmInDesireState alwaysStopped stubClient "ins-1" "RUNNING" maxInt fuel
        {}).returns = true) ∧
    (¬ ∃ fuel,
      (waitVmInDesireState alwaysStopped stubClient "ins-1" "RUNNING" (2 ^ 63 - 3) fuel
        {}).returns = true ∧
      (elapsed (waitVmInDesireState alwaysStopped stubClient "ins-1" "RUNNING" (2 ^ 63 - 3) fuel
        {}).world.trace : Int) ≤ (2 ^ 63 - 3) + 5) := by
  constructor
  · rintro ⟨fuel, h⟩
    rw [waitState_maxInt_outOfFuel] at h
    simp [Res.returns] at h
  · rintro ⟨fuel, hret, hel⟩
    have hN : waitFuel (2 ^ 63 - 3) = 1844674407370955162 := by rfl
    by_cases hf : fuel ≤ waitFuel (2 ^ 63 - 3)
    · have h := waitState_wraps_on fuel 0 hf
      rw [Nat.add_zero] at h
      rw [h, waitState_loop_zero] at hret
      exact absurd hret (by simp [Res.returns])
    · obtain ⟨extra, rfl⟩ : ∃ extra, fuel = waitFuel (2 ^ 63 - 3) + (extra + 1) :=
        ⟨fuel - waitFuel (2 ^ 63 - 3) - 1, by omega⟩
      rw [waitState_wraps_on _ (extra + 1) (le_refl _)] at hel
      obtain ⟨more, hm⟩ := waitState_loop_trace alwaysStopped stubClient "ins-1" "RUNNING"
        (2 ^ 63 - 3) extra (countAfter 0 (waitFuel (2 ^ 63 - 3)))
        ((({} : World)).after (pollEvents "ins-1" (waitFuel (2 ^ 63 - 3))))
      rw [hm] at hel
      generalize waitFuel (2 ^ 63 - 3) = N at hel hN
      have hsum : elapsed ((({} : World)).after (pollEvents "ins-1" N)).trace = 5 * N := by
        rw [← (pollEvents_counts "ins-1" N).1]; rfl
      have hone : elapsed [Event.sleep 5] = 5 := rfl
      rw [elapsed_append, elapsed_append, hsum, hone] at hel
      push_cast at hel
      omega

/-- C8 as amended: for every timeout from 0 to `2 ^ 63 - 4`, if every poll
returns without error and never passes the desired-state test, then
`waitVmInDesireState` and `waitVmTerminateDone` return the wait-timeout error in
the world reached by `timeout / 5 + 1` polls, when the elapsed time (5 per
poll) is greater than `timeout` and at most `timeout + 5`. -/
theorem wait_times_out (env : Env) (client : Client) (id desire : String) (timeout : Int)
    (fuel : Nat) (w : World) (h0 : 0 ≤ timeout) (hmax : timeout ≤ 2 ^ 63 - 4)
    (hfuel : waitFuel timeout ≤ fuel) :
    ((∀ k, Pending desire (pollResponse env client id w k)) →
      waitVmInDesireState env client id desire timeout fuel w =
        Res.ok (some VM_WAIT_STATE_TIMEOUT_ERROR)
          (w.after (pollEvents id (waitFuel timeout)))) ∧
    ((∀ k, StillListed (pollResponse env client id w k)) →
      waitVmTerminateDone env client id timeout fuel w =
        Res.ok (some VM_WAIT_STATE_TIMEOUT_ERROR)
          (w.after (pollEvents id (waitFuel timeout)))) ∧
    timeout < (elapsed (pollEvents id (waitFuel timeout)) : Int) ∧
    (elapsed (pollEvents id (waitFuel timeout)) : Int) ≤ timeout + 5 ∧
    (pollEvents id (waitFuel timeout)).countP isSleep = waitFuel timeout ∧
    (pollEvents id (waitFuel timeout)).countP isDescribe = waitFuel timeout := by
  obtain ⟨m, hm⟩ : ∃ m : Nat, (m : Int) = timeout / 5 := ⟨(timeout / 5).toNat, by omega⟩
  have hN : waitFuel timeout = m + 1 := by unfold waitFuel; omega
  obtain ⟨extra, rfl⟩ : ∃ extra, fuel = m + (extra + 1) := ⟨fuel - (m + 1), by omega⟩
  have hbudget := budget_not_used timeout m (by omega)
  have hcount : countAfter 0 m = (m : Int) := by
    rw [countAfter_small m 0 (le_refl 0) (by unfold maxInt; omega)]; simp
  have hw1 : wrapInt ((m : Int) + 1) = m + 1 :=
    wrapInt_of_small _ (by omega) (by unfold maxInt; omega)
  have hw2 : wrapInt (((m : Int) + 1) * 5) = (m + 1) * 5 :=
    wrapInt_of_small _ (by omega) (by unfold maxInt; omega)
  have hexceeds : wrapInt (wrapInt (countAfter 0 m + 1) * 5) > timeout := by
    rw [hcount, hw1, hw2]; omega
  rw [hN]
  refine ⟨fun hp => ?_, fun hp => ?_, ?_, ?_, (pollEvents_counts id (m + 1)).2.1,
    (pollEvents_counts id (m + 1)).2.2.1⟩
  · unfold waitVmInDesireState
    rw [waitState_pending_run env client id desire timeout m (extra + 1) 0 w
        (fun k _ => hp k) hbudget,
      waitState_step_pending env client id desire timeout extra _ _
        (by simpa [pollResponse, World.after, pollEvents] using hp m),
      if_pos hexceeds, after_after, ← pollEvents_succ]
  · unfold waitVmTerminateDone
    rw [waitGone_pending_run env client id timeout m (extra + 1) 0 w
        (fun k _ => hp k) hbudget,
      waitGone_step_pending env client id timeout extra _ _
        (by simpa [pollResponse, World.after, pollEvents] using hp m),
      if_pos hexceeds, after_after, ← pollEvents_succ]
  · rw [(pollEvents_counts id (m + 1)).1]; push_cast; omega
  · rw [(pollEvents_counts id (m + 1)).1]; push_cast; omega

/-- C8 as amended, at the timeout `VMCreateAction.Do` waits with: against a
cloud whose instance stays stopped the wait gives up after 25 polls, 125
elapsed. -/
theorem wait_times_out_witness :
    waitVmInDesireState alwaysStopped stubClient "ins-1" "RUNNING" 120 (waitFuel 120) {} =
      Res.ok (some VM_WAIT_STATE_TIMEOUT_ERROR)
        ((({} : World)).after (pollEvents "ins-1" (waitFuel 120))) :=
  (wait_times_out alwaysStopped stubClient "ins-1" "RUNNING" 120 (waitFuel 120) {}
    (by decide) (by decide) (le_refl _)).1 (fun k => alwaysStopped_pending _ k)

/-! ### The fuel of the wait loops is enough -/

theorem runsOut_pure {α : Type} (a : α) : RunsOut (pure a : M α) := fun _ => rfl

theorem runsOut_goPanic {α : Type} (msg : String) : RunsOut (goPanic msg : M α) := fun _ => rfl

theorem runsOut_bind {α β : Type} (m : M α) (f : α → M β) (hm : RunsOut m)
    (hf : ∀ a, RunsOut (f a)) : RunsOut (m >>= f) := by
  intro w
  show (M.bind m f w).isOutOfFuel = false
  have h1 := hm w
  unfold M.bind
  cases h : m w with
  | ok a w1 => exact hf a w1
  | panic msg w1 => rfl
  | outOfFuel w1 => rw [h] at h1; exact h1

theorem runsOut_deref {α : Type} (x : Option α) : RunsOut (deref x) := by
  cases x with
  | none => exact runsOut_goPanic _
  | some a => exact runsOut_pure a

theorem runsOut_index {α : Type} (xs : List α) (i : Nat) : RunsOut (index xs i) := by
  unfold index
  cases xs.get? i with
  | none => exact runsOut_goPanic _
  | some a => exact runsOut_pure a

theorem runsOut_sliceTo (s : String) (n : Nat) : RunsOut (sliceTo s n) := by
  unfold sliceTo
  split
  · exact runsOut_goPanic _
  · exact runsOut_pure _

theorem runsOut_getInstanceByInstanceId (env : Env) (client : Client) (instanceId : String) :
    RunsOut (getInstanceByInstanceId env client instanceId) := by
  unfold getInstanceByInstanceId
  refine runsOut_bind _ _ (fun _ => rfl) ?_
  rintro ⟨response, err⟩
  cases err with
  | some e => exact runsOut_pure _
  | none =>
    refine runsOut_bind _ _ (runsOut_deref _) fun r =>
      runsOut_bind _ _ (runsOut_deref _) fun body => ?_
    split
    · exact runsOut_pure _
    · exact runsOut_bind _ _ (runsOut_index _ _) fun _ => runsOut_pure _

/-- Entered with a `count` that has not used up the budget, and with fuel for the
polls the budget still allows, the loop of `waitVmInDesireState` returns or
panics before the fuel is gone. -/
theorem runsOut_waitVmInDesireState_loop (env : Env) (client : Client) (id desire : String)
    (timeout : Int) (hmax : timeout ≤ 2 ^ 63 - 4) :
    ∀ (fuel : Nat) (count : Int), 0 ≤ count → 5 * count ≤ timeout →
      timeout / 5 - count + 1 ≤ fuel →
      RunsOut (waitVmInDesireState.loop env client id desire timeout fuel count) := by
  intro fuel
  induction fuel with
  | zero => intro count h0 h1 h2; omega
  | succ f ih =>
    intro count h0 h1 h2
    rw [waitVmInDesireState.loop]
    refine runsOut_bind _ _ (fun _ => rfl) fun _ =>
      runsOut_bind _ _ (runsOut_getInstanceByInstanceId _ _ _) ?_
    rintro ⟨inst, err⟩
    cases err with
    | some e => exact runsOut_pure _
    | none =>
      refine runsOut_bind _ _ (runsOut_deref _) fun i =>
        runsOut_bind _ _ (runsOut_deref _) fun st => ?_
      split
      · exact runsOut_pure _
      · dsimp only
        have hw1 : wrapInt (count + 1) = count + 1 :=
          wrapInt_of_small _ (by omega) (by unfold maxInt; omega)
        have hw2 : wrapInt ((count + 1) * 5) = (count + 1) * 5 :=
          wrapInt_of_small _ (by omega) (by unfold maxInt; omega)
        rw [hw1, hw2]
        split
        · exact runsOut_pure _
        · exact ih (count + 1) (by omega) (by omega) (by push_cast at h2; omega)

/-- The same for the loop of `waitVmTerminateDone`. -/
theorem runsOut_waitVmTerminateDone_loop (env : Env) (client : Client) (id : String)
    (timeout : Int) (hmax : timeout ≤ 2 ^ 63 - 4) :
    ∀ (fuel : Nat) (count : Int), 0 ≤ count → 5 * count ≤ timeout →
      timeout / 5 - count + 1 ≤ fuel →
      RunsOut (waitVmTerminateDone.loop env client id timeout fuel count) := by
  intro fuel
  induction fuel with
  | zero => intro count h0 h1 h2; omega
  | succ f ih =>
    intro count h0 h1 h2
    rw [waitVmTerminateDone.loop]
    refine runsOut_bind _ _ (fun _ => rfl) fun _ => runsOut_bind _ _ (fun _ => rfl) ?_
    rintro ⟨response, err⟩
    cases err with
    | some e => exact runsOut_pure _
    | none =>
      refine runsOut_bind _ _ (runsOut_deref _) fun r =>
        runsOut_bind _ _ (runsOut_deref _) fun body => ?_
      split
      · exact runsOut_pure _
      · dsimp only
        have hw1 : wrapInt (count + 1) = count + 1 :=
          wrapInt_of_small _ (by omega) (by unfold maxInt; omega)
        have hw2 : wrapInt ((count + 1) * 5) = (count + 1) * 5 :=
          wrapInt_of_small _ (by omega) (by unfold maxInt; omega)
        rw [hw1, hw2]
        split
        · exact runsOut_pure _
        · exact ih (count + 1) (by omega) (by omega) (by push_cast at h2; omega)

/-- The fuel `waitFuel timeout` that the `Do` functions hand to the waits is
enough for every timeout from 0 to `2 ^ 63 - 4`, whatever the cloud answers. -/
theorem waitFuel_enough (env : Env) (client : Client) (id desire : String) (timeout : Int)
    (h0 : 0 ≤ timeout) (hmax : timeout ≤ 2 ^ 63 - 4) :
    RunsOut (waitVmInDesireState env client id desire timeout (waitFuel timeout)) ∧
    RunsOut (waitVmTerminateDone env client id timeout (waitFuel timeout)) := by
  have hf : timeout / 5 - 0 + 1 ≤ ((waitFuel timeout : Nat) : Int) := by
    unfold waitFuel; push_cast; omega
  exact ⟨runsOut_waitVmInDesireState_loop env client id desire timeout hmax _ 0 (le_refl 0)
      (by omega) hf,
    runsOut_waitVmTerminateDone_loop env client id timeout hmax _ 0 (le_refl 0) (by omega) hf⟩

theorem runsOut_checkExist (env : Env) (client : Client) (vm : VmInput) (output : VmOutput) :
    RunsOut (VMCreateAction.Do.checkExist env client vm output) := by
  unfold VMCreateAction.Do.checkExist
  split
  · refine runsOut_bind _ _ (fun _ => rfl) ?_
    rintro ⟨response, err⟩
    cases err with
    | some e => exact runsOut_pure _
    | none =>
      refine runsOut_bind _ _ (runsOut_deref _) fun r =>
        runsOut_bind _ _ (runsOut_deref _) fun body => ?_
      split
      · exact runsOut_pure _
      · split
        · exact runsOut_bind _ _ (runsOut_deref _) fun _ =>
            runsOut_bind _ _ (runsOut_index _ _) fun _ =>
            runsOut_bind _ _ (runsOut_deref _) fun _ =>
            runsOut_bind _ _ (runsOut_deref _) fun _ =>
            runsOut_bind _ _ (runsOut_deref _) fun _ =>
            runsOut_bind _ _ (runsOut_deref _) fun _ =>
            runsOut_bind _ _ (runsOut_index _ _) fun _ =>
            runsOut_bind _ _ (runsOut_deref _) fun _ => runsOut_pure _
        · exact runsOut_pure _
  · exact runsOut_pure _

theorem runsOut_create (env : Env) (client : Client) (paramsMap : List (String × String))
    (vm : VmInput) (output : VmOutput) :
    RunsOut (VMCreateAction.Do.create env client paramsMap vm output) := by
  unfold VMCreateAction.Do.create
  refine runsOut_bind _ _ (fun _ => rfl) ?_
  rintro ⟨resp, err⟩
  cases err with
  | some e => exact runsOut_pure _
  | none =>
    refine runsOut_bind _ _ (runsOut_deref _) fun _ => runsOut_bind _ _ (runsOut_deref _) fun _ =>
      runsOut_bind _ _ (runsOut_index _ _) fun _ => runsOut_bind _ _ (runsOut_deref _) fun _ =>
      runsOut_bind _ _ (runsOut_deref _) fun _ =>
      runsOut_bind _ _ (waitFuel_enough env client _ _ 120 (by decide) (by decide)).1 ?_
    intro err2
    cases err2 with
    | some e => exact runsOut_pure _
    | none =>
      refine runsOut_bind _ _ (fun _ => rfl) ?_
      rintro ⟨dresp, err3⟩
      cases err3 with
      | some e => exact runsOut_pure _
      | none =>
        refine runsOut_bind _ _ (runsOut_sliceTo _ _) fun key => ?_
        dsimp only
        split
        · exact runsOut_pure _
        · exact runsOut_bind _ _ (runsOut_deref _) fun _ =>
            runsOut_bind _ _ (runsOut_deref _) fun _ =>
            runsOut_bind _ _ (runsOut_deref _) fun _ =>
            runsOut_bind _ _ (runsOut_index _ _) fun _ =>
            runsOut_bind _ _ (runsOut_deref _) fun _ =>
            runsOut_bind _ _ (runsOut_deref _) fun _ =>
            runsOut_bind _ _ (runsOut_deref _) fun _ =>
            runsOut_bind _ _ (runsOut_deref _) fun _ =>
            runsOut_bind _ _ (runsOut_index _ _) fun _ =>
            runsOut_bind _ _ (runsOut_deref _) fun _ => runsOut_pure _

/-- The loop of `VMCreateAction.Do` returns or panics: the fuel of its wait is
never what stops it. -/
theorem runsOut_VMCreateAction_Do_loop (env : Env) (inputs : List VmInput) :
    ∀ outputs, RunsOut (VMCreateAction.Do.loop env inputs outputs) := by
  induction inputs with
  | nil => intro outputs; unfold VMCreateAction.Do.loop; exact runsOut_pure _
  | cons vm rest ih =>
    intro outputs
    unfold VMCreateAction.Do.loop
    dsimp only
    split
    · exact runsOut_pure _
    · refine runsOut_bind _ _ ?_ fun vm1 =>
        runsOut_bind _ _ (runsOut_checkExist _ _ _ _) fun check => ?_
      · split
        · exact runsOut_bind _ _ (fun _ => rfl) fun _ => runsOut_pure _
        · exact runsOut_pure _
      · cases check with
        | returnErr e => exact runsOut_pure _
        | appendAndContinue o => exact ih _
        | fallThrough =>
          refine runsOut_bind _ _ (runsOut_checkExist _ _ _ _) fun check2 => ?_
          cases check2 with
          | returnErr e => exact runsOut_pure _
          | appendAndContinue o => exact ih _
          | fallThrough =>
            refine runsOut_bind _ _ (runsOut_create _ _ _ _ _) ?_
            rintro ⟨o, err⟩
            cases err with
            | some e => exact runsOut_pure _
            | none => exact runsOut_bind _ _ (runsOut_deref _) fun _ => ih _

/-- The loop of `VMTerminateAction.Do` returns or panics: the fuel of its wait
is never what stops it. -/
theorem runsOut_VMTerminateAction_Do_loop (env : Env) (inputs : List VmInput) :
    ∀ outputs, RunsOut (VMTerminateAction.Do.loop env inputs outputs) := by
  induction inputs with
  | nil => intro outputs; unfold VMTerminateAction.Do.loop; exact runsOut_pure _
  | cons vm rest ih =>
    intro outputs
    unfold VMTerminateAction.Do.loop
    dsimp only
    split
    · exact runsOut_pure _
    · refine runsOut_bind _ _ (fun _ => rfl) ?_
      rintro ⟨response, err⟩
      cases err with
      | some e => exact runsOut_pure _
      | none =>
        refine runsOut_bind _ _ (runsOut_deref _) fun _ =>
          runsOut_bind _ _ (runsOut_deref _) fun _ =>
          runsOut_bind _ _ (runsOut_deref _) fun _ =>
          runsOut_bind _ _ (waitFuel_enough env _ _ "" 600 (by decide) (by decide)).2 ?_
        intro err2
        cases err2 with
        | some e => exact runsOut_pure _
        | none => exact ih _

/-! ### The registry -/

theorem getPluginByName_of_lookup (plugins : Registry) (name : String) (plugin : Plugin)
    (h : plugins.lookup name = some plugin) :
    getPluginByName plugins name = (some plugin, none) := by
  simp [getPluginByName, h]

theorem RegisterPlugin_fatal_iff (plugins : Registry) (name : String) (plugin : Plugin) :
    RegisterPlugin plugins name plugin = none ↔ ∃ p ∈ plugins, p.1 = name := by
  unfold RegisterPlugin
  cases h : plugins.lookup name with
  | some q =>
    simp only [true_iff]
    have hs : (plugins.lookup name).isSome = true := by rw [h]; rfl
    rw [List.lookup_isSome_iff] at hs
    obtain ⟨p, hp, heq⟩ := hs
    exact ⟨p, hp, (beq_iff_eq.mp heq).symm⟩
  | none =>
    simp only [reduceCtorEq, false_iff]
    rintro ⟨p, hp, heq⟩
    rw [List.lookup_eq_none_iff] at h
    have := h p hp
    rw [heq] at this
    simp at this

theorem RegisterPlugin_adds (plugins plugins' : Registry) (name : String) (plugin : Plugin)
    (h : RegisterPlugin plugins name plugin = some plugins') :
    plugins' = (name, plugin) :: plugins := by
  unfold RegisterPlugin at h
  cases hl : plugins.lookup name with
  | some q => rw [hl] at h; simp at h
  | none => rw [hl] at h; simp at h; exact h.symm

/-- C13: `RegisterPlugin(name, p)` is fatal exactly when `name` is already in
the registry; otherwise it adds the one entry `(name, p)`, after which
`getPluginByName(name)` returns `p` and every other name is looked up as
before. The seventeen registrations of `init`, run from the empty registry,
end without a fatal error, and each of the seventeen names then resolves to
the plugin it was registered with. -/
theorem RegisterPlugin_unique_names (env : Env) (others : OtherPlugins) (plugins : Registry)
    (name : String) (plugin : Plugin) :
    (RegisterPlugin plugins name plugin = none ↔ ∃ p ∈ plugins, p.1 = name) ∧
    (∀ plugins', RegisterPlugin plugins name plugin = some plugins' →
      plugins' = (name, plugin) :: plugins ∧
      getPluginByName plugins' name = (some plugin, none) ∧
      ∀ other, other ≠ name → getPluginByName plugins' other = getPluginByName plugins other) ∧
    (∃ registry, init env others = some registry ∧ registry.length = 17 ∧
      (init.registrations env others).length = 17 ∧
      ∀ entry ∈ init.registrations env others,
        getPluginByName registry entry.1 = (some entry.2, none)) := by
  refine ⟨RegisterPlugin_fatal_iff plugins name plugin, ?_, ?_⟩
  · intro plugins' h
    have hp := RegisterPlugin_adds plugins plugins' name plugin h
    subst hp
    refine ⟨rfl, getPluginByName_of_lookup _ _ _ (by simp), ?_⟩
    intro other hne
    have hb : (other == name) = false := by simpa using hne
    simp [getPluginByName, List.lookup_cons, hb]
  · refine ⟨_, rfl, rfl, rfl, ?_⟩
    intro entry hmem
    simp only [init.registrations, List.mem_cons, List.mem_singleton] at hmem
    rcases hmem with h | h | h | h | h | h | h | h | h | h | h | h | h | h | h | h | h | h
    all_goals first | (subst h; rfl) | simp at h

/-! ### A failing record ends the batch -/

/-- C13 at concrete registries: registering "vm" a second time is fatal. -/
theorem RegisterPlugin_unique_names_witness :
    RegisterPlugin (vmRegistry alwaysRunning) "vm" (VmPlugin alwaysRunning) = none :=
  (RegisterPlugin_unique_names alwaysRunning (sameOthers (VmPlugin alwaysRunning))
    (vmRegistry alwaysRunning) "vm" (VmPlugin alwaysRunning)).1.mpr
    ⟨("vm", VmPlugin alwaysRunning), by simp [vmRegistry], rfl⟩

/-! ### The create path -/

theorem pollResponse_congr (env : Env) (client : Client) (id : String) (w v : World) (k : Nat)
    (h : w.trace = v.trace) : pollResponse env client id w k = pollResponse env client id v k := by
  simp [pollResponse, h]

/-- The wait of `waitVmInDesireState` ends with success at the first poll that
finds the desired state, if the budget lasts until then. -/
theorem waitState_reached_at (env : Env) (client : Client) (id desire : String) (timeout : Int)
    (m extra : Nat) (w : World) (hto : 5 * (m : Int) ≤ timeout)
    (hp : ∀ k < m, Pending desire (pollResponse env client id w k))
    (hr : Reached desire (pollResponse env client id w m)) :
    waitVmInDesireState env client id desire timeout (m + (extra + 1)) w =
      Res.ok none (w.after (pollEvents id (m + 1))) := by
  unfold waitVmInDesireState
  rw [waitState_pending_run env client id desire timeout m (extra + 1) 0 w hp
      (budget_not_used timeout m hto),
    waitState_step_reached env client id desire timeout extra _ _
      (by simpa [pollResponse, World.after, pollEvents] using hr),
    after_after, ← pollEvents_succ]

theorem withPassword_Seed (env : Env) (vm : VmInput) (w : World) :
    (withPassword env vm w).Seed = vm.Seed := by
  unfold withPassword; split <;> rfl

theorem create_ok (env : Env) (client : Client) (paramsMap : List (String × String))
    (vm : VmInput) (output : VmOutput) (w : World) (runBody : RunInstancesBody)
    (id requestId0 : String) (n : Nat) (body : DescribeInstancesBody) (inst : Instance)
    (requestId state ip password : String) (memory cpu : Int)
    (hrun : env.RunInstances w.trace client (VMCreateAction.Do.request paramsMap vm) =
      (some ⟨some runBody⟩, none))
    (hid : runBody.InstanceIdSet.get? 0 = some (some id))
    (hack : runBody.RequestId = some requestId0)
    (hn : 1 ≤ n) (hn25 : n ≤ 25)
    (hpending : ∀ k < n - 1, Pending INSTANCE_STATE_RUNNING
      (pollResponse env client id
        (w.after [Event.RunInstances (VMCreateAction.Do.request paramsMap vm)]) k))
    (hreached : Reached INSTANCE_STATE_RUNNING
      (pollResponse env client id
        (w.after [Event.RunInstances (VMCreateAction.Do.request paramsMap vm)]) (n - 1)))
    (hd : env.DescribeInstances
      (w.trace ++ Event.RunInstances (VMCreateAction.Do.request paramsMap vm) :: pollEvents id n)
      client [id] = (some ⟨some body⟩, none))
    (hset : body.InstanceSet.get? 0 = some (some inst)) (hrid : body.RequestId = some requestId)
    (hm : inst.Memory = some memory) (hc : inst.CPU = some cpu)
    (hst : inst.InstanceState = some state)
    (hip : inst.PrivateIpAddresses.get? 0 = some (some ip))
    (hmd5 : 16 ≤ (env.Md5Encode (vm.Guid ++ vm.Seed)).length)
    (haes : env.AesEncode (String.mk ((env.Md5Encode (vm.Guid ++ vm.Seed)).data.take 16))
      vm.Password = (password, none)) :
    VMCreateAction.Do.create env client paramsMap vm output w =
      Res.ok (some { output with
          Password := password, RequestId := requestId, Guid := vm.Guid, Id := id,
          Memory := Itoa memory, Cpu := Itoa cpu, InstanceState := state,
          InstancePrivateIp := ip }, none)
        (w.after (createEvents (VMCreateAction.Do.request paramsMap vm) id n)) := by
  obtain ⟨m, rfl⟩ : ∃ m, n = m + 1 := ⟨n - 1, by omega⟩
  simp only [Nat.add_sub_cancel] at hpending hreached
  obtain ⟨extra, hextra⟩ : ∃ extra, waitFuel 120 = m + (extra + 1) :=
    ⟨24 - m, by have : waitFuel 120 = 25 := by rfl
                omega⟩
  have hwait := waitState_reached_at env client id INSTANCE_STATE_RUNNING 120 m extra
    (w.after [Event.RunInstances (VMCreateAction.Do.request paramsMap vm)])
    (by omega) hpending hreached
  rw [← hextra] at hwait
  have hrunM : Client.RunInstances env client (VMCreateAction.Do.request paramsMap vm) w =
      Res.ok (some ⟨some runBody⟩, none)
        (w.after [Event.RunInstances (VMCreateAction.Do.request paramsMap vm)]) := by
    simp [Client.RunInstances, hrun, World.after]
  have hdM : describeInstancesFromCvm env client [id]
      ((w.after [Event.RunInstances (VMCreateAction.Do.request paramsMap vm)]).after
        (pollEvents id (m + 1))) =
      Res.ok (some ⟨some body⟩, none)
        (w.after (createEvents (VMCreateAction.Do.request paramsMap vm) id (m + 1))) := by
    simp only [describeInstancesFromCvm, Client.DescribeInstances, World.after, createEvents,
      List.append_assoc, List.singleton_append, List.cons_append, List.nil_append, hd]
  have hslice : sliceTo (env.Md5Encode (vm.Guid ++ vm.Seed)) 16
      (w.after (createEvents (VMCreateAction.Do.request paramsMap vm) id (m + 1))) =
      Res.ok (String.mk ((env.Md5Encode (vm.Guid ++ vm.Seed)).data.take 16))
        (w.after (createEvents (VMCreateAction.Do.request paramsMap vm) id (m + 1))) := by
    simp [sliceTo, Nat.not_lt.mpr hmd5, pure, M.pure]
  rw [List.get?_eq_getElem?] at hid hset hip
  unfold VMCreateAction.Do.create
  rw [bind_ok _ _ _ _ _ hrunM]
  simp only [bind, M.bind, deref, index, pure, M.pure, hid, hack, hwait, hdM, hslice, haes,
    hset, hrid, hm, hc, hst, hip, List.get?_eq_getElem?]

/-- C12: the create path. For a create record with an empty id whose client is
built: when `RunInstances` is acknowledged with instance id `id` (and a request
id), the wait finds the instance running at its `n`-th poll (`n ≤ 25`, the
polls before it returning without error), the describe call after the wait
observes an instance with memory, cpu, state and a private address, the md5
helper returns at least 16 characters and the cipher helper returns no error,
then the record is processed without error and its output has the input's
Guid, Id `id`, cpu and memory as decimal strings of the observed numbers, and
the observed state and first private address. `Do` on that one record succeeds
with that one output record and `Process` answers with result code "0". -/
theorem create_reports_observation (env : Env) (vm : VmInput) (w : World)
    (runBody : RunInstancesBody) (id requestId0 : String) (n : Nat)
    (body : DescribeInstancesBody) (inst : Instance) (requestId state ip password : String)
    (memory cpu : Int)
    (hempty : vm.Id = "") (hclient : clientErrOf env vm = none)
    (hrun : env.RunInstances w.trace (clientOf env vm)
      (VMCreateAction.Do.request (paramsOf env vm) (withPassword env vm w)) =
        (some ⟨some runBody⟩, none))
    (hid : runBody.InstanceIdSet.get? 0 = some (some id))
    (hack : runBody.RequestId = some requestId0)
    (hn : 1 ≤ n) (hn25 : n ≤ 25)
    (hpending : ∀ k < n - 1, Pending INSTANCE_STATE_RUNNING
      (pollResponse env (clientOf env vm) id
        (w.after [Event.RunInstances
          (VMCreateAction.Do.request (paramsOf env vm) (withPassword env vm w))]) k))
    (hreached : Reached INSTANCE_STATE_RUNNING
      (pollResponse env (clientOf env vm) id
        (w.after [Event.RunInstances
          (VMCreateAction.Do.request (paramsOf env vm) (withPassword env vm w))]) (n - 1)))
    (hd : env.DescribeInstances
      (w.trace ++ Event.RunInstances
        (VMCreateAction.Do.request (paramsOf env vm) (withPassword env vm w)) :: pollEvents id n)
      (clientOf env vm) [id] = (some ⟨some body⟩, none))
    (hset : body.InstanceSet.get? 0 = some (some inst)) (hrid : body.RequestId = some requestId)
    (hm : inst.Memory = some memory) (hc : inst.CPU = some cpu)
    (hst : inst.InstanceState = some state)
    (hip : inst.PrivateIpAddresses.get? 0 = some (some ip))
    (hmd5 : 16 ≤ (env.Md5Encode (vm.Guid ++ vm.Seed)).length)
    (haes : env.AesEncode (String.mk ((env.Md5Encode (vm.Guid ++ vm.Seed)).data.take 16))
      (withPassword env vm w).Password = (password, none)) :
    (createdOutput vm id requestId memory cpu state ip password).Guid = vm.Guid ∧
    (createdOutput vm id requestId memory cpu state ip password).Id = id ∧
    (createdOutput vm id requestId memory cpu state ip password).Cpu = Itoa cpu ∧
    (createdOutput vm id requestId memory cpu state ip password).Memory = Itoa memory ∧
    (createdOutput vm id requestId memory cpu state ip password).InstanceState = state ∧
    (createdOutput vm id requestId memory cpu state ip password).InstancePrivateIp = ip ∧
    (∀ rest outputs,
      VMCreateAction.Do.loop env (vm :: rest) outputs w =
        VMCreateAction.Do.loop env rest
          { Outputs := outputs.Outputs ++
              [createdOutput vm id requestId memory cpu state ip password] }
          ((afterPassword vm w).after (createEvents
            (VMCreateAction.Do.request (paramsOf env vm) (withPassword env vm w)) id n))) ∧
    VMCreateAction.Do env (Any.VmInputs { Inputs := [vm] }) w =
      Res.ok (Any.VmOutputsPtr
          { Outputs := [createdOutput vm id requestId memory cpu state ip password] }, none)
        ((afterPassword vm w).after (createEvents
          (VMCreateAction.Do.request (paramsOf env vm) (withPassword env vm w)) id n)) ∧
    (∀ plugins req,
      plugins.lookup req.Name = some (VmPlugin env) → req.Action = "create" →
      env.UnmarshalJsonVmInputs req.Parameters = ({ Inputs := [vm] }, none) →
      Process plugins req w =
        Res.ok (⟨"0", "success", Any.VmOutputsPtr
            { Outputs := [createdOutput vm id requestId memory cpu state ip password] }⟩, none)
          ((afterPassword vm w).after (createEvents
            (VMCreateAction.Do.request (paramsOf env vm) (withPassword env vm w)) id n))) := by
  have hid1 : (withPassword env vm w).Id = "" := by rw [withPassword_Id]; exact hempty
  have hcreate := create_ok env (clientOf env vm) (paramsOf env vm) (withPassword env vm w) {}
    (afterPassword vm w) runBody id requestId0 n body inst requestId state ip password memory cpu
    (by rw [afterPassword_trace]; exact hrun) hid hack hn hn25
    (fun k hk => by
      rw [pollResponse_congr env _ id _ (w.after [Event.RunInstances
        (VMCreateAction.Do.request (paramsOf env vm) (withPassword env vm w))]) k
        (by simp [World.after, afterPassword_trace])]
      exact hpending k hk)
    (by
      rw [pollResponse_congr env _ id _ (w.after [Event.RunInstances
        (VMCreateAction.Do.request (paramsOf env vm) (withPassword env vm w))]) (n - 1)
        (by simp [World.after, afterPassword_trace])]
      exact hreached)
    (by rw [afterPassword_trace]; exact hd) hset hrid hm hc hst hip
    (by rw [withPassword_Guid, withPassword_Seed]; exact hmd5)
    (by rw [withPassword_Guid, withPassword_Seed]; exact haes)
  have hloop : ∀ rest outputs,
      VMCreateAction.Do.loop env (vm :: rest) outputs w =
        VMCreateAction.Do.loop env rest
          { Outputs := outputs.Outputs ++
              [createdOutput vm id requestId memory cpu state ip password] }
          ((afterPassword vm w).after (createEvents
            (VMCreateAction.Do.request (paramsOf env vm) (withPassword env vm w)) id n)) := by
    intro rest outputs
    rw [VMCreateAction_Do_loop_cons env vm rest outputs w hclient,
      bind_ok _ _ _ _ _ (checkExist_no_id env _ _ _ _ hid1)]
    simp only
    rw [bind_ok _ _ _ _ _ (checkExist_no_id env _ _ _ _ hid1)]
    simp only
    rw [bind_ok _ _ _ _ _ hcreate]
    simp only [bind, M.bind, deref, pure, M.pure, withPassword_Guid, createdOutput]
  have hdo : VMCreateAction.Do env (Any.VmInputs { Inputs := [vm] }) w =
      Res.ok (Any.VmOutputsPtr
          { Outputs := [createdOutput vm id requestId memory cpu state ip password] }, none)
        ((afterPassword vm w).after (createEvents
          (VMCreateAction.Do.request (paramsOf env vm) (withPassword env vm w)) id n)) := by
    unfold VMCreateAction.Do
    simp only [assertVmInputs]
    rw [hloop]
    simp [VMCreateAction.Do.loop, pure, M.pure]
  refine ⟨rfl, rfl, rfl, rfl, rfl, rfl, hloop, hdo, ?_⟩
  intro plugins req hl ha hu
  refine Process_of_allStagesOk plugins req w _ _
    ⟨VmPlugin env, VMCreateAction env, Any.VmInputs { Inputs := [vm] }, w, w, w,
      getPluginByName_of_lookup _ _ _ hl, ?_, ?_, rfl, hdo⟩
  · rw [ha]; rfl
  · show VMAction.ReadParam env req.Parameters w = _
    simp [VMAction.ReadParam, hu, pure, M.pure]

/-- C12 at the specification's scenario: the stub reports the instance running
with cpu 2, memory 4096 and private address "10.0.0.5"; `Process` answers "0"
with one output record for guid "g1". -/
theorem create_reports_observation_witness :
    Process (vmRegistry alwaysRunning) createRequest {} =
      Res.ok (⟨"0", "success", Any.VmOutputsPtr
          { Outputs := [{ Guid := "g1", RequestId := "req-describe", Id := "ins-new",
                          Cpu := "2", Memory := "4096", Password := "aes:Pw0",
                          InstanceState := "RUNNING", InstancePrivateIp := "10.0.0.5" }] }⟩,
        none)
        { trace := [Event.RunInstances (VMCreateAction.Do.request [("Region", "ap-guangzhou")]
                      { Guid := "g1", ImageId := "img-1", InstanceType := "S1",
                        SystemDiskSize := 50, Password := "Pw0" }),
                    Event.sleep 5, Event.DescribeInstances ["ins-new"],
                    Event.DescribeInstances ["ins-new"]],
          randDraws := 1 } :=
  (create_reports_observation alwaysRunning
    { Guid := "g1", ImageId := "img-1", InstanceType := "S1", SystemDiskSize := 50 } {}
    { InstanceIdSet := [some "ins-new"], RequestId := some "req-run" } "ins-new" "req-run" 1
    (bodyOf [runningInstance] "req-describe") runningInstance "req-describe" "RUNNING" "10.0.0.5"
    "aes:Pw0" 4096 2 (by rfl) (by rfl) (by rfl) (by rfl) (by rfl) (by decide) (by decide)
    (fun k hk => absurd hk (Nat.not_lt_zero k))
    ⟨bodyOf [runningInstance] "req-describe", runningInstance, by rfl, rfl, rfl⟩
    (by rfl) (by rfl) (by rfl) (by rfl) (by rfl) (by rfl) (by rfl) (by decide) (by rfl)).2.2.2.2.2.2.2.2
    (vmRegistry alwaysRunning) createRequest (by rfl) (by rfl) (by rfl)

end Plugins
